import Mathlib

/-!
# Vehicle repository: a shallow embedding and its contract

The Go program keeps its vehicles in a `map[int]internal.Vehicle` owned by
`repository.VehicleMap`.  This development embeds

* the record type `internal.Vehicle`,
* every method of `repository.VehicleMap` (`src/internal/repository/vehicle_map.go`),
* the field validator `tools.CheckFieldExistance` (`src/internal/tools/validator.go`),
* the `Create`, `UpdateSpeed` and `GetByDimensions` handlers of
  `src/internal/handler/vehicle.go`,

and proves the contract of the specification about them.

Conventions of the embedding:

* a Go `map[K]V` is a Mathlib `AList` (a list of key/value entries without a
  repeated key); `m[k]` is `AList.lookup`, `m[k] = v` is `AList.insert`,
  `delete(m, k)` is `AList.erase`, and `for k, v := range m` is a left fold over
  the entries.  Go leaves the iteration order unspecified, so every theorem about
  a resulting map is stated through `lookup`, never through the entry order, and
  the one loop whose result depends on the order (`AverageSpeed`) is stated for
  every order of visit;
* Go `int` is `Int` (no arithmetic is ever done on identifiers or years);
* Go `float64` is `Float64`, a model of IEEE 754 binary64 with both zeros, the
  infinities and NaN, whose sum, quotient and decimal conversion round to
  nearest, ties to even;
* a JSON number is kept as its literal (`JNumber`), since `encoding/json` decodes
  it from the text: into an `int` field only when it has neither fraction nor
  exponent, into a `float64` as the nearest one, with an error when out of range;
* a method with a pointer receiver that mutates `r.db` takes the map and returns
  the new map together with its `err` result (`none` is Go's `nil`);
* the namespaces `internal`, `repository`, `service`, `strings`, `tools` and
  `handler` are the Go packages of the same names.
-/

/-- A Go map with keys `κ` and values `β`. -/
abbrev GoMap (κ : Type) (β : Type) : Type := AList (fun _ : κ => β)

/-- The values of Go's `float64` (IEEE 754 binary64).  Every finite `float64` is a whole
multiple of `2 ^ (-1074)`: `finite neg m` is the number `m * 2 ^ (-1074)`, negated when
`neg` is set, so `finite false 0` and `finite true 0` are the two zeros.  The
constructor also admits multiples that need more than 53 significant bits or reach
`2 ^ 1024`; the arithmetic below never returns such a value (it rounds), and every
theorem that quantifies over `Float64` holds of them as well. -/
inductive Float64 where
  | finite (neg : Bool) (m : Nat)
  | inf (neg : Bool)
  | nan
deriving DecidableEq

namespace Float64

/-- Search for an exponent `j` with `n < 2 ^ 2 ^ (j + 1)`, trying `j`, `j + 1`, ... -/
def spanExp : Nat → Nat → Nat → Nat
  | 0, j, _ => j
  | fuel + 1, j, n => if n < 2 ^ 2 ^ (j + 1) then j else spanExp fuel (j + 1) n

/-- Binary search for `⌊log₂ n⌋`: from `2 ^ b ≤ n < 2 ^ (b + 2 ^ (j + 1))` to the `r`
with `2 ^ r ≤ n < 2 ^ (r + 1)`. -/
def narrow : Nat → Nat → Nat → Nat
  | 0, b, n => if 2 ^ (b + 1) ≤ n then b + 1 else b
  | j + 1, b, n => narrow j (if 2 ^ (b + 2 ^ (j + 1)) ≤ n then b + 2 ^ (j + 1) else b) n

/-- The number of binary digits of `n`: the least `b` with `n < 2 ^ b`. -/
def bitLength (n : Nat) : Nat :=
  if n = 0 then 0 else narrow (spanExp n 0 n) 0 n + 1

/-- Rounding to nearest, ties to even, of the non-negative rational `n / d`, counted in
units of `2 ^ (-1074)`, to a number with at most 53 significant binary digits.  Below
`2 ^ 53` units the candidates are the whole numbers of units (the subnormal and the
lowest normal numbers); above, they are the multiples of `2 ^ s`, with `s` the number of
digits in excess of 53. -/
def roundUnits (n d : Nat) : Nat :=
  let s := bitLength (n / d) - 53
  let q := n / (d * 2 ^ s)
  let r := n % (d * 2 ^ s)
  if d * 2 ^ s < 2 * r ∨ (2 * r = d * 2 ^ s ∧ q % 2 = 1) then (q + 1) * 2 ^ s
  else q * 2 ^ s

/-- The number of units of `2 ^ (-1074)` in one. -/
def unitsPerOne : Nat := 2 ^ 1074

/-- The number `2 ^ 1024` in units of `2 ^ (-1074)`: a rounded magnitude that reaches it
is out of range. -/
def overflowUnits : Nat := 2 ^ 2098

/-- The `float64` nearest to the rational `n / d` units, with the given sign: infinite
when the rounded magnitude is out of range. -/
def round (neg : Bool) (n d : Nat) : Float64 :=
  if overflowUnits ≤ roundUnits n d then inf neg else finite neg (roundUnits n d)

/-- Whether the value is one a `float64` can hold: a finite magnitude must be below
`2 ^ 1024` and have at most 53 significant binary digits, that is, be its own
rounding. -/
def isValue : Float64 → Bool
  | finite _ m => decide (m < overflowUnits) && decide (roundUnits m 1 = m)
  | _ => true

/-- Positive zero, the zero value of a Go `float64`. -/
def zero : Float64 := finite false 0

/-- The constant `1`. -/
def one : Float64 := finite false unitsPerOne

/-- The conversion `float64(n)` of a natural number. -/
def ofNat (n : Nat) : Float64 := round false (n * unitsPerOne) 1

/-- The numerator of the decimal `coeff * 10 ^ exp10` counted in units of `2 ^ (-1074)`:
the decimal is `decimalNum coeff exp10 / decimalDen exp10` units. -/
def decimalNum (coeff : Nat) (exp10 : Int) : Nat :=
  if 0 ≤ exp10 then coeff * 10 ^ exp10.toNat * unitsPerOne else coeff * unitsPerOne

/-- The denominator of a decimal with exponent `exp10` counted in units of
`2 ^ (-1074)`. -/
def decimalDen (exp10 : Int) : Nat :=
  if 0 ≤ exp10 then 1 else 10 ^ (-exp10).toNat

/-- The `float64` nearest to the decimal `coeff * 10 ^ exp10`, with the given sign. -/
def ofDecimal (neg : Bool) (coeff : Nat) (exp10 : Int) : Float64 :=
  round neg (decimalNum coeff exp10) (decimalDen exp10)

/-- Go's `x + y` on `float64`. -/
def add : Float64 → Float64 → Float64
  | nan, _ => nan
  | _, nan => nan
  | inf a, inf b => if a = b then inf a else nan
  | inf a, finite _ _ => inf a
  | finite _ _, inf b => inf b
  | finite a m, finite b n =>
    if a = b then round a (m + n) 1
    else if m = n then zero
    else if n < m then round a (m - n) 1
    else round b (n - m) 1

/-- Go's `x / y` on `float64`. -/
def div : Float64 → Float64 → Float64
  | nan, _ => nan
  | _, nan => nan
  | inf _, inf _ => nan
  | inf a, finite b _ => inf (a != b)
  | finite a _, inf b => finite (a != b) 0
  | finite a m, finite b n =>
    if n = 0 then (if m = 0 then nan else inf (a != b))
    else round (a != b) (m * unitsPerOne) n

/-- The integer number of units of a finite value, with its sign. -/
def signedUnits (neg : Bool) (m : Nat) : Int :=
  if neg then -(m : Int) else (m : Int)

/-- Go's `x <= y` on `float64`: false when either is NaN; the two zeros are equal. -/
def le : Float64 → Float64 → Bool
  | nan, _ => false
  | _, nan => false
  | inf a, inf b => a || !b
  | inf a, finite _ _ => a
  | finite _ _, inf b => !b
  | finite a m, finite b n => decide (signedUnits a m ≤ signedUnits b n)

/-- Go's `x < y` on `float64`. -/
def lt : Float64 → Float64 → Bool
  | nan, _ => false
  | _, nan => false
  | inf a, inf b => a && !b
  | inf a, finite _ _ => a
  | finite _ _, inf b => !b
  | finite a m, finite b n => decide (signedUnits a m < signedUnits b n)

/-- Go's `x == y` on `float64`: false when either is NaN; the two zeros are equal. -/
def eq : Float64 → Float64 → Bool
  | nan, _ => false
  | _, nan => false
  | inf a, inf b => a == b
  | inf _, finite _ _ => false
  | finite _ _, inf _ => false
  | finite a m, finite b n => decide (signedUnits a m = signedUnits b n)

instance (n : Nat) : OfNat Float64 n := ⟨ofNat n⟩

instance : LE Float64 := ⟨fun x y => le x y = true⟩

instance : LT Float64 := ⟨fun x y => lt x y = true⟩

instance (x y : Float64) : Decidable (x ≤ y) :=
  inferInstanceAs (Decidable (le x y = true))

instance (x y : Float64) : Decidable (x < y) :=
  inferInstanceAs (Decidable (lt x y = true))

end Float64

namespace internal

/-- Modelled from the spec: the declaration of `internal.Dimensions` is not among the
sources; the fields are the ones `handler.VehicleJSONToVehicle` fills in. -/
structure Dimensions where
  Height : Float64
  Length : Float64
  Width : Float64
deriving DecidableEq

/-- Modelled from the spec: the declaration of `internal.VehicleAttributes` is not among
the sources; the fields are the ones `handler.VehicleJSONToVehicle` fills in, with
`Dimensions` embedded as in Go. -/
structure VehicleAttributes extends Dimensions where
  Brand : String
  Model : String
  Registration : String
  Color : String
  FabricationYear : Int
  Capacity : Int
  MaxSpeed : Float64
  FuelType : String
  Transmission : String
  Weight : Float64
deriving DecidableEq

/-- Modelled from the spec: the declaration of `internal.Vehicle` is not among the
sources; it is an identifier plus the embedded `VehicleAttributes`, as
`handler.VehicleJSONToVehicle` builds it. -/
structure Vehicle extends VehicleAttributes where
  Id : Int
deriving DecidableEq

end internal

namespace repository

open internal

/-- The errors built with `fmt.Errorf` in `vehicle_map.go`; each constructor carries the
arguments of its format string. -/
inductive RepoError where
  /-- The text is `vehicle with id %d already exists`. -/
  | alreadyExists (id : Int)
  /-- The text is `error creating vehicle %s - %s with id %d: %w`. -/
  | creating (brand model : String) (id : Int) (cause : RepoError)
  /-- The text is `vehicle with id %d not found`. -/
  | notFound (id : Int)
  /-- The text is `no vehicles found with color %s and year %d`. -/
  | noColorYear (color : String) (year : Int)
  /-- The text is `brand: %s - year range: %d - %d`. -/
  | noBrandRange (brand : String) (yearstart yearend : Int)
  /-- The text is `no se encontraron vehículos de la marca %s`. -/
  | noBrand (brand : String)
  /-- The text is `no se encontraron vehículos con combustible: %s`. -/
  | noFuelType (fuelType : String)
  /-- The text is `no se encontraron vehículos con esas dimensiones`. -/
  | noDimensions
deriving DecidableEq

/-- The store `VehicleMap.db`. -/
abbrev Store : Type := GoMap Int Vehicle

/-- The body `if cond(value) { v[key] = value }` of the copying loops, for the entry
`e = (key, value)`. -/
def copyStep (cond : Vehicle → Bool) (v : Store) (e : (_ : Int) × Vehicle) : Store :=
  if cond e.2 then v.insert e.1 e.2 else v

/-- The loop `for key, value := range db { if cond(value) { v[key] = value } }` shared by
`FindAll` and the `FindBy...` methods, started from `v`. -/
def copyWhere (cond : Vehicle → Bool) (db : Store) (v : Store) : Store :=
  db.entries.foldl (copyStep cond) v

/-- `VehicleMap.FindAll`: a fresh map holding every entry of `db`; `err` stays `nil`. -/
def FindAll (db : Store) : Store × Option RepoError :=
  (copyWhere (fun _ => true) db ∅, none)

/-- `VehicleMap.Create`. -/
def Create (db : Store) (v : Vehicle) : Store × Option RepoError :=
  match db.lookup v.Id with
  | some _ => (db, some (RepoError.alreadyExists v.Id))
  | none => (db.insert v.Id v, none)

/-- `VehicleMap.FindByColorYear`. -/
def FindByColorYear (db : Store) (color : String) (year : Int) : Store × Option RepoError :=
  let v := copyWhere (fun value => value.Color == color && value.FabricationYear == year) db ∅
  if v.entries.length = 0 then (v, some (RepoError.noColorYear color year)) else (v, none)

/-- `VehicleMap.FindByBrandRange`. -/
def FindByBrandRange (db : Store) (brand : String) (yearstart yearend : Int) :
    Store × Option RepoError :=
  let v := copyWhere (fun value => value.Brand == brand
    && decide (value.FabricationYear ≥ yearstart) && decide (value.FabricationYear ≤ yearend)) db ∅
  if v.entries.length = 0 then (v, some (RepoError.noBrandRange brand yearstart yearend))
  else (v, none)

/-- The body of the loop of `VehicleMap.AverageSpeed` on the pair
`(totalSpeed, totalVehicles)`, for the entry `e`: `totalSpeed += value.MaxSpeed` and
`totalVehicles++`, both in `float64`. -/
def speedStep (brand : String) (acc : Float64 × Float64) (e : (_ : Int) × Vehicle) :
    Float64 × Float64 :=
  if e.2.Brand == brand then (Float64.add acc.1 e.2.MaxSpeed, Float64.add acc.2 Float64.one)
  else acc

/-- The loop of `VehicleMap.AverageSpeed` when `range` visits the entries in the order
`order`: the pair `(totalSpeed, totalVehicles)`, both started at zero. -/
def speedTotals (order : List ((_ : Int) × Vehicle)) (brand : String) : Float64 × Float64 :=
  order.foldl (speedStep brand) (Float64.zero, Float64.zero)

/-- `VehicleMap.AverageSpeed` when `range` visits the entries in the order `order`; on the
error path `average` keeps its zero value. -/
def averageOver (order : List ((_ : Int) × Vehicle)) (brand : String) :
    Float64 × Option RepoError :=
  let totals := speedTotals order brand
  if Float64.eq totals.2 Float64.zero then (Float64.zero, some (RepoError.noBrand brand))
  else (Float64.div totals.1 totals.2, none)

/-- The first loop of `VehicleMap.CreateBatch`: the error of the first vehicle of the
batch whose identifier is a key of `db`. -/
def batchCollision (db : Store) : List Vehicle → Option RepoError
  | [] => none
  | vehicle :: rest =>
    match db.lookup vehicle.Id with
    | some _ => some (RepoError.alreadyExists vehicle.Id)
    | none => batchCollision db rest

/-- The second loop of `VehicleMap.CreateBatch`: `Create` each vehicle in turn and return
at the first failure, with the error wrapped. -/
def batchInsert (db : Store) : List Vehicle → Store × Option RepoError
  | [] => (db, none)
  | vehicle :: rest =>
    match Create db vehicle with
    | (db1, some err) =>
      (db1, some (RepoError.creating vehicle.Brand vehicle.Model vehicle.Id err))
    | (db1, none) => batchInsert db1 rest

/-- `VehicleMap.CreateBatch`. -/
def CreateBatch (db : Store) (v : List Vehicle) : Store × Option RepoError :=
  match batchCollision db v with
  | some err => (db, some err)
  | none => batchInsert db v

/-- `VehicleMap.UpdateSpeed`. -/
def UpdateSpeed (db : Store) (id : Int) (speed : Float64) : Store × Option RepoError :=
  match db.lookup id with
  | none => (db, some (RepoError.notFound id))
  | some vehicle => (db.insert id { vehicle with MaxSpeed := speed }, none)

/-- `VehicleMap.FindByFuelType`. -/
def FindByFuelType (db : Store) (fuelType : String) : Store × Option RepoError :=
  let v := copyWhere (fun value => value.FuelType == fuelType) db ∅
  if v.entries.length = 0 then (v, some (RepoError.noFuelType fuelType)) else (v, none)

/-- `VehicleMap.Delete`. -/
def Delete (db : Store) (id : Int) : Store × Option RepoError :=
  match db.lookup id with
  | none => (db, some (RepoError.notFound id))
  | some _ => (db.erase id, none)

/-- `VehicleMap.UpdateFuelType`. -/
def UpdateFuelType (db : Store) (id : Int) (fuelType : String) : Store × Option RepoError :=
  match db.lookup id with
  | none => (db, some (RepoError.notFound id))
  | some vehicle => (db.insert id { vehicle with FuelType := fuelType }, none)

/-- `VehicleMap.FindByDimensions`; the four comparisons are those of `float64`. -/
def FindByDimensions (db : Store) (minlength maxlength minwidth maxwidth : Float64) :
    Store × Option RepoError :=
  let v := copyWhere (fun value => decide (value.Length ≥ minlength)
    && decide (value.Length ≤ maxlength) && decide (value.Width ≥ minwidth)
    && decide (value.Width ≤ maxwidth)) db ∅
  if v.entries.length = 0 then (v, some RepoError.noDimensions) else (v, none)

/-- `repository.NewVehicleMap`: the store of the new repository is the map it is given,
or a fresh empty map when it is given `nil` (`none`). -/
def NewVehicleMap (db : Option Store) : Store :=
  match db with
  | some given => given
  | none => ∅

/-- Identifier consistency of a store: every entry holds a record whose `Id` field is the
key of the entry.  This is the invariant of the specification; it is not part of the Go
code. -/
def IdConsistent (db : Store) : Prop :=
  ∀ e ∈ db.entries, e.2.Id = e.1

instance (db : Store) : Decidable (IdConsistent db) :=
  inferInstanceAs (Decidable (∀ e ∈ db.entries, e.2.Id = e.1))

/-- A call of one of the five methods of `VehicleMap` that write to the store. -/
inductive Op where
  | create (v : Vehicle)
  | createBatch (v : List Vehicle)
  | updateSpeed (id : Int) (speed : Float64)
  | updateFuelType (id : Int) (fuelType : String)
  | delete (id : Int)

/-- The method call `op` made on the store `db`. -/
def applyOp (db : Store) : Op → Store × Option RepoError
  | Op.create v => Create db v
  | Op.createBatch v => CreateBatch db v
  | Op.updateSpeed id speed => UpdateSpeed db id speed
  | Op.updateFuelType id fuelType => UpdateFuelType db id fuelType
  | Op.delete id => Delete db id

/-- The store after a sequence of method calls, each made on the store the previous one
left, whether it failed or not. -/
def run (db : Store) (ops : List Op) : Store :=
  ops.foldl (fun s op => (applyOp s op).1) db

end repository

namespace service

open internal repository

/-- `service.VehicleDefault.FindAll`: forwards to the repository. -/
def FindAll (db : Store) : Store × Option RepoError :=
  repository.FindAll db

/-- `service.VehicleDefault.Create`: forwards to the repository. -/
def Create (db : Store) (v : Vehicle) : Store × Option RepoError :=
  repository.Create db v

/-- `service.VehicleDefault.CreateBatch`: forwards to the repository. -/
def CreateBatch (db : Store) (v : List Vehicle) : Store × Option RepoError :=
  repository.CreateBatch db v

/-- `service.VehicleDefault.UpdateSpeed`: forwards to the repository. -/
def UpdateSpeed (db : Store) (id : Int) (speed : Float64) : Store × Option RepoError :=
  repository.UpdateSpeed db id speed

/-- `service.VehicleDefault.Delete`: forwards to the repository. -/
def Delete (db : Store) (id : Int) : Store × Option RepoError :=
  repository.Delete db id

/-- `service.VehicleDefault.UpdateFuelType`: forwards to the repository. -/
def UpdateFuelType (db : Store) (id : Int) (fuelType : String) : Store × Option RepoError :=
  repository.UpdateFuelType db id fuelType

/-- `service.VehicleDefault.FindByDimensions`: forwards to the repository. -/
def FindByDimensions (db : Store) (minlength maxlength minwidth maxwidth : Float64) :
    Store × Option RepoError :=
  repository.FindByDimensions db minlength maxlength minwidth maxwidth

end service

namespace strings

/-- The pieces of a list of characters between the occurrences of `sep`; there is one
piece more than there are occurrences, so at least one. -/
def splitChars (sep : Char) : List Char → List (List Char)
  | [] => [[]]
  | c :: cs =>
    if c = sep then [] :: splitChars sep cs
    else
      match splitChars sep cs with
      | [] => [[c]]
      | piece :: pieces => (c :: piece) :: pieces

/-- `strings.Split(s, sep)` for a separator of one character, which is how the program
calls it: the substrings of `s` between the occurrences of `sep`. -/
def Split (s : String) (sep : Char) : List String :=
  (splitChars sep s.data).map String.mk

end strings

/-- A JSON number as it is written: an optional minus sign, an integer part, an optional
fraction part (the number of its digits and their value) and an optional exponent
part.  `-12.050e3` is `⟨true, 12, some (3, 50), some 3⟩`. -/
structure JNumber where
  neg : Bool
  intPart : Nat
  frac : Option (Nat × Nat)
  exp : Option Int

namespace JNumber

/-- The number of digits of the fraction part. -/
def fracLength (n : JNumber) : Nat :=
  match n.frac with
  | some (len, _) => len
  | none => 0

/-- The digits of the integer and fraction parts read as one natural number. -/
def coeff (n : JNumber) : Nat :=
  match n.frac with
  | some (len, digits) => n.intPart * 10 ^ len + digits
  | none => n.intPart

/-- The power of ten that `coeff` is to be multiplied by: the magnitude of the number is
`coeff * 10 ^ exp10`. -/
def exp10 (n : JNumber) : Int :=
  n.exp.getD 0 - (n.fracLength : Int)

/-- The numerator of the magnitude of the number counted in units of `2 ^ (-1074)`: the
magnitude is `unitsNum / unitsDen` units, so it exceeds `2 ^ (-1075)`, half a unit,
exactly when `unitsDen < 2 * unitsNum`. -/
def unitsNum (n : JNumber) : Nat :=
  Float64.decimalNum n.coeff n.exp10

/-- The denominator of the magnitude of the number counted in units of `2 ^ (-1074)`. -/
def unitsDen (n : JNumber) : Nat :=
  Float64.decimalDen n.exp10

/-- `strconv.ParseFloat(text, 64)` on the text of the number: the nearest `float64`, or
an error (`none`) when it is out of range.  A number too small in magnitude is not an
error: it gives a zero. -/
def toFloat64 (n : JNumber) : Option Float64 :=
  match Float64.ofDecimal n.neg n.coeff n.exp10 with
  | Float64.inf _ => none
  | x => some x

/-- `strconv.ParseInt(text, 10, 64)` on the text of the number: an error (`none`) when
the text has a fraction or an exponent part, or a value that does not fit 64 bits. -/
def toInt (n : JNumber) : Option Int :=
  match n.frac, n.exp with
  | none, none =>
    if n.neg then
      (if (n.intPart : Int) ≤ (2 : Int) ^ 63 then some (-(n.intPart : Int)) else none)
    else
      (if (n.intPart : Int) < (2 : Int) ^ 63 then some (n.intPart : Int) else none)
  | _, _ => none

/-- The number written as the decimal digits of `k`. -/
def ofNat (k : Nat) : JNumber :=
  { neg := false, intPart := k, frac := none, exp := none }

end JNumber

/-- A JSON value as it stands in a request body. -/
inductive JVal where
  | null
  | bool (b : Bool)
  | num (n : JNumber)
  | str (s : String)
  | arr (items : List JVal)
  | obj (members : List (String × JVal))

mutual
/-- Whether `encoding/json` decodes the value into an `any` without error: every number
in it, at any depth, must be within the range of `float64`. -/
def JVal.decodes : JVal → Bool
  | JVal.null => true
  | JVal.bool _ => true
  | JVal.num n => n.toFloat64.isSome
  | JVal.str _ => true
  | JVal.arr items => JVal.allDecode items
  | JVal.obj members => JVal.membersDecode members
/-- Whether every value of the list decodes. -/
def JVal.allDecode : List JVal → Bool
  | [] => true
  | v :: rest => JVal.decodes v && JVal.allDecode rest
/-- Whether the value of every member decodes. -/
def JVal.membersDecode : List (String × JVal) → Bool
  | [] => true
  | kv :: rest => JVal.decodes kv.2 && JVal.membersDecode rest
end

/-- A Go value of type `any`, by dynamic type.  The contents of slices and maps are
never inspected by the program and are kept as the JSON they were decoded from. -/
inductive GoAny where
  | nil
  | bool (b : Bool)
  | int (i : Int)
  | float64 (x : Float64)
  | string (s : String)
  | slice (items : List JVal)
  | map (members : List (String × JVal))

/-- The value `encoding/json` stores into an `any`: `nil`, `bool`, the nearest `float64`
for a number, `string`, `[]any` or `map[string]any`; `none` when decoding fails because
a number in the value is out of range. -/
def JVal.toAny : JVal → Option GoAny
  | JVal.null => some GoAny.nil
  | JVal.bool b => some (GoAny.bool b)
  | JVal.num n => n.toFloat64.map GoAny.float64
  | JVal.str s => some (GoAny.string s)
  | JVal.arr items => if JVal.allDecode items then some (GoAny.slice items) else none
  | JVal.obj members => if JVal.membersDecode members then some (GoAny.map members) else none

namespace tools

/-- `tools.FieldError`. -/
structure FieldError where
  Field : String
  Msg : String
deriving DecidableEq

/-- The test `value == ""` on an `any`: true only for a `string` that is empty. -/
def eqEmptyString : GoAny → Bool
  | GoAny.string s => s == ""
  | _ => false

/-- The test `value == 0` on an `any`: the constant is an `int`, so it is true only for
an `int` that is zero. -/
def eqIntZero : GoAny → Bool
  | GoAny.int i => i == 0
  | _ => false

/-- The test `value == 0.0` on an `any`: the constant is a `float64`, so it is true only
for a `float64` that compares equal to zero. -/
def eqFloatZero : GoAny → Bool
  | GoAny.float64 x => Float64.eq x Float64.zero
  | _ => false

/-- The loop of `tools.CheckFieldExistance` over the entries of the map. -/
def checkEntries : List ((_ : String) × GoAny) → Option FieldError
  | [] => none
  | e :: rest =>
    if eqEmptyString e.2 || eqIntZero e.2 || eqFloatZero e.2 then
      some { Field := e.1, Msg := "field is required" }
    else checkEntries rest

/-- `tools.CheckFieldExistance`. -/
def CheckFieldExistance (fields : GoMap String GoAny) : Option FieldError :=
  checkEntries fields.entries

end tools

namespace handler

open internal repository

/-- `handler.VehicleJSON`. -/
structure VehicleJSON where
  ID : Int
  Brand : String
  Model : String
  Registration : String
  Color : String
  FabricationYear : Int
  Capacity : Int
  MaxSpeed : Float64
  FuelType : String
  Transmission : String
  Weight : Float64
  Height : Float64
  Length : Float64
  Width : Float64
deriving DecidableEq

/-- The composite literal `VehicleJSON{}`: every field at its zero value. -/
def VehicleJSON.zero : VehicleJSON :=
  { ID := 0, Brand := "", Model := "", Registration := "", Color := "", FabricationYear := 0,
    Capacity := 0, MaxSpeed := Float64.zero, FuelType := "", Transmission := "",
    Weight := Float64.zero, Height := Float64.zero, Length := Float64.zero,
    Width := Float64.zero }

/-- `handler.VehicleJSONToVehicle`. -/
def VehicleJSONToVehicle (v : VehicleJSON) : Vehicle :=
  { Id := v.ID, Brand := v.Brand, Model := v.Model, Registration := v.Registration,
    Color := v.Color, FabricationYear := v.FabricationYear, Capacity := v.Capacity,
    MaxSpeed := v.MaxSpeed, FuelType := v.FuelType, Transmission := v.Transmission,
    Weight := v.Weight, Height := v.Height, Length := v.Length, Width := v.Width }

/-- `http.StatusBadRequest`. -/
def StatusBadRequest : Nat := 400

/-- `http.StatusConflict`. -/
def StatusConflict : Nat := 409

/-- `http.StatusCreated`. -/
def StatusCreated : Nat := 201

/-- What the handler gets from `io.ReadAll(r.Body)` and from parsing the bytes. -/
inductive RequestBody where
  /-- The call `io.ReadAll` returns an error. -/
  | readError
  /-- The bytes are not a JSON text. -/
  | invalid
  /-- The bytes are the JSON text of `j`. -/
  | json (j : JVal)

/-- The map `encoding/json` builds from the members of an object, added to `m`: each
member is decoded and stored under its key in turn, so a repeated key keeps its last
value; `none` when a member fails to decode. -/
def objectToMap : List (String × JVal) → GoMap String GoAny → Option (GoMap String GoAny)
  | [], m => some m
  | kv :: rest, m =>
    match kv.2.toAny with
    | none => none
    | some x => objectToMap rest (m.insert kv.1 x)

/-- `json.Unmarshal(bytes, &bodyMap)` for `bodyMap := map[string]any{}`: an object fills
the map, `null` leaves it empty, any other value is an error (`none`), and so is an
object with a number out of range in it. -/
def unmarshalMap : JVal → Option (GoMap String GoAny)
  | JVal.obj members => objectToMap members ∅
  | JVal.null => some ∅
  | _ => none

/-- The value an object gives to `key`: that of its last member with exactly this key.
Not part of the Go code. -/
def lastMember : List (String × JVal) → String → Option JVal
  | [], _ => none
  | kv :: rest, key =>
    match lastMember rest key with
    | some v => some v
    | none => if kv.1 = key then some kv.2 else none

/-- How `encoding/json` folds one character of an object key before it looks for the
struct field: letter case is ignored, and the two non-ASCII letters whose case folding
reaches an ASCII letter (long s, Kelvin sign) are folded onto it. -/
def foldChar (c : Char) : Char :=
  if c = Char.ofNat 0x17F then 's' else if c = Char.ofNat 0x212A then 'k' else c.toLower

/-- The folded form of an object key. -/
def foldKey (key : String) : String :=
  String.mk (key.data.map foldChar)

/-- Decoding of a JSON value into a Go `string` field: `none` is an error, `some none`
leaves the field as it is (`null`), `some (some s)` stores `s`. -/
def decodeString : JVal → Option (Option String)
  | JVal.str s => some (some s)
  | JVal.null => some none
  | _ => none

/-- Decoding of a JSON value into a Go `int` field: a number must be written without
fraction and exponent and fit 64 bits. -/
def decodeInt : JVal → Option (Option Int)
  | JVal.num n =>
    match n.toInt with
    | some i => some (some i)
    | none => none
  | JVal.null => some none
  | _ => none

/-- Decoding of a JSON value into a Go `float64` field: the nearest `float64` of a
number, an error when it is out of range. -/
def decodeFloat : JVal → Option (Option Float64)
  | JVal.num n =>
    match n.toFloat64 with
    | some x => some (some x)
    | none => none
  | JVal.null => some none
  | _ => none

/-- Decoding of one object member into the `VehicleJSON` being filled: the member whose
folded key is a `json` tag of the struct is decoded into that field, any other member is
skipped; `none` is a decoding error. -/
def setField (v : VehicleJSON) (key : String) (value : JVal) : Option VehicleJSON :=
  let name := foldKey key
  if name = "id" then (decodeInt value).map (fun r => { v with ID := r.getD v.ID })
  else if name = "brand" then
    (decodeString value).map (fun r => { v with Brand := r.getD v.Brand })
  else if name = "model" then
    (decodeString value).map (fun r => { v with Model := r.getD v.Model })
  else if name = "registration" then
    (decodeString value).map (fun r => { v with Registration := r.getD v.Registration })
  else if name = "color" then
    (decodeString value).map (fun r => { v with Color := r.getD v.Color })
  else if name = "year" then
    (decodeInt value).map (fun r => { v with FabricationYear := r.getD v.FabricationYear })
  else if name = "passengers" then
    (decodeInt value).map (fun r => { v with Capacity := r.getD v.Capacity })
  else if name = "max_speed" then
    (decodeFloat value).map (fun r => { v with MaxSpeed := r.getD v.MaxSpeed })
  else if name = "fuel_type" then
    (decodeString value).map (fun r => { v with FuelType := r.getD v.FuelType })
  else if name = "transmission" then
    (decodeString value).map (fun r => { v with Transmission := r.getD v.Transmission })
  else if name = "weight" then
    (decodeFloat value).map (fun r => { v with Weight := r.getD v.Weight })
  else if name = "height" then
    (decodeFloat value).map (fun r => { v with Height := r.getD v.Height })
  else if name = "length" then
    (decodeFloat value).map (fun r => { v with Length := r.getD v.Length })
  else if name = "width" then
    (decodeFloat value).map (fun r => { v with Width := r.getD v.Width })
  else some v

/-- The members of an object decoded one after the other into `v`. -/
def setFields (v : VehicleJSON) : List (String × JVal) → Option VehicleJSON
  | [] => some v
  | kv :: rest =>
    match setField v kv.1 kv.2 with
    | none => none
    | some v1 => setFields v1 rest

/-- `json.Unmarshal(bytes, &vehicle)` for `vehicle := VehicleJSON{}`: an object is decoded
member by member, `null` leaves the struct at its zero value, any other value is an
error (`none`).  A field no member names keeps its zero value. -/
def unmarshalVehicle : JVal → Option VehicleJSON
  | JVal.obj members => setFields VehicleJSON.zero members
  | JVal.null => some VehicleJSON.zero
  | _ => none

/-- `handler.VehicleDefault.Create`, the handler of `POST /vehicles`: the store after the
request and the status code of the response. -/
def Create (db : Store) (body : RequestBody) : Store × Nat :=
  match body with
  | RequestBody.readError => (db, StatusBadRequest)
  | RequestBody.invalid => (db, StatusBadRequest)
  | RequestBody.json j =>
    match unmarshalMap j with
    | none => (db, StatusBadRequest)
    | some bodyMap =>
      match tools.CheckFieldExistance bodyMap with
      | some _ => (db, StatusBadRequest)
      | none =>
        match unmarshalVehicle j with
        | none => (db, StatusBadRequest)
        | some vehicle =>
          match service.Create db (VehicleJSONToVehicle vehicle) with
          | (db1, some _) => (db1, StatusConflict)
          | (db1, none) => (db1, StatusCreated)

/-- `http.StatusOK`. -/
def StatusOK : Nat := 200

/-- `http.StatusNotFound`. -/
def StatusNotFound : Nat := 404

/-- `handler.VehicleDefault.UpdateSpeed`, the handler of `PUT /vehicles/{id}/speed`: the
store after the request and the status code of the response.  `id` is the result of
`strconv.Atoi(chi.URLParam(r, "id"))`, `none` when it returns an error.  The type
assertion `bodyMap["max_speed"].(float64)` succeeds only on a `float64` stored under
exactly that key. -/
def UpdateSpeed (db : Store) (id : Option Int) (body : RequestBody) : Store × Nat :=
  match id with
  | none => (db, StatusBadRequest)
  | some id =>
    match body with
    | RequestBody.readError => (db, StatusBadRequest)
    | RequestBody.invalid => (db, StatusBadRequest)
    | RequestBody.json j =>
      match unmarshalMap j with
      | none => (db, StatusBadRequest)
      | some bodyMap =>
        match bodyMap.lookup "max_speed" with
        | some (GoAny.float64 newSpeedValue) =>
          if newSpeedValue ≤ Float64.zero then (db, StatusBadRequest)
          else
            match service.UpdateSpeed db id newSpeedValue with
            | (db1, some _) => (db1, StatusNotFound)
            | (db1, none) => (db1, StatusOK)
        | _ => (db, StatusBadRequest)

/-- How a handler that does not write to the store ends: with a response of the given
status code, or with a run-time panic (an index out of range) and no response of its
own. -/
inductive Outcome where
  | response (status : Nat)
  | panic
deriving DecidableEq

/-- `handler.VehicleDefault.GetByDimensions`, the handler of `GET /vehicles/dimensions`.
`ParseFloat s` is the result of `strconv.ParseFloat(s, 64)`, `none` when it returns an
error; `length` and `width` are the query parameters, `none` when the parameter is
absent, for which `r.URL.Query().Get` gives the empty string.  An index expression
`lengths[i]` with `i` out of range panics. -/
def GetByDimensions (ParseFloat : String → Option Float64) (db : Store)
    (length width : Option String) : Outcome :=
  let lengths := strings.Split (length.getD "") '-'
  let widths := strings.Split (width.getD "") '-'
  match lengths[0]? with
  | none => Outcome.panic
  | some lengths0 =>
    match ParseFloat lengths0 with
    | none => Outcome.response StatusBadRequest
    | some minlength =>
      match lengths[1]? with
      | none => Outcome.panic
      | some lengths1 =>
        match ParseFloat lengths1 with
        | none => Outcome.response StatusBadRequest
        | some maxlength =>
          match widths[0]? with
          | none => Outcome.panic
          | some widths0 =>
            match ParseFloat widths0 with
            | none => Outcome.response StatusBadRequest
            | some minwidth =>
              match widths[1]? with
              | none => Outcome.panic
              | some widths1 =>
                match ParseFloat widths1 with
                | none => Outcome.response StatusBadRequest
                | some maxwidth =>
                  match service.FindByDimensions db minlength maxlength minwidth maxwidth with
                  | (_, some _) => Outcome.response StatusNotFound
                  | (_, none) => Outcome.response StatusOK

end handler

/-! ## Concrete data used in the examples -/

namespace Sample

open internal repository

/-- A vehicle with the given identifier, brand, year, speed, length and width, the other
fields fixed. -/
def vehicle (id : Int) (brand : String) (year : Int) (speed length width : Float64) :
    Vehicle :=
  { Id := id, Brand := brand, Model := "M", Registration := "R", Color := "red",
    FabricationYear := year, Capacity := 4, MaxSpeed := speed, FuelType := "gas",
    Transmission := "manual", Weight := Float64.ofNat 1000, Height := Float64.ofNat 1,
    Length := length, Width := width }

/-- The Corolla of the specification's example: identifier 1, speed 180, length 1,
width 2. -/
def corolla : Vehicle :=
  vehicle 1 "Toyota" 2020 (Float64.ofNat 180) (Float64.ofNat 1) (Float64.ofNat 2)

/-- The `float64` 2.5, which is `5 * 2 ^ (-1)`. -/
def twoAndHalf : Float64 := Float64.finite false (5 * 2 ^ 1073)

/-- The Camry of the specification's example: identifier 2, speed 200; its length is
2.5. -/
def camry : Vehicle :=
  vehicle 2 "Toyota" 2022 (Float64.ofNat 200) twoAndHalf (Float64.ofNat 2)

/-- A second vehicle carrying the Corolla's identifier 1. -/
def hondaTwin : Vehicle :=
  vehicle 1 "Honda" 2021 (Float64.ofNat 150) (Float64.ofNat 1) (Float64.ofNat 1)

/-- A vehicle whose identifier 7 is not in the sample store. -/
def civic : Vehicle :=
  vehicle 7 "Honda" 2019 (Float64.ofNat 170) (Float64.ofNat 3) (Float64.ofNat 3)

/-- The store holding the Corolla and the Camry. -/
def toyotas : Store := AList.insert 2 camry (AList.insert 1 corolla ∅)

/-- Three entries of brand Kia with max speeds `10 ^ 16`, 1 and 1. -/
def unevenKias : List ((_ : Int) × Vehicle) :=
  [⟨1, vehicle 1 "Kia" 2020 (Float64.ofNat (10 ^ 16)) (Float64.ofNat 1) (Float64.ofNat 1)⟩,
   ⟨2, vehicle 2 "Kia" 2021 (Float64.ofNat 1) (Float64.ofNat 1) (Float64.ofNat 1)⟩,
   ⟨3, vehicle 3 "Kia" 2022 (Float64.ofNat 1) (Float64.ofNat 1) (Float64.ofNat 1)⟩]

/-- A request body naming an identifier and a brand and no other field. -/
def sparseBody : handler.RequestBody :=
  handler.RequestBody.json
    (JVal.obj [("id", JVal.num (JNumber.ofNat 5)), ("brand", JVal.str "Toyota")])

/-- The value of a string of decimal digits read from the left, starting from `acc`;
`none` when a character is not a digit. -/
def digitsValue (acc : Nat) : List Char → Option Nat
  | [] => some acc
  | c :: cs => if c.isDigit then digitsValue (10 * acc + (c.toNat - 48)) cs else none

/-- A stand-in for `strconv.ParseFloat` on the strings the examples use: a non-empty
string of decimal digits has the `float64` of its value, and the empty string is an
error, as in Go.  It is not meant for any other string. -/
def parseDigits (s : String) : Option Float64 :=
  match s.data with
  | [] => none
  | c :: cs => (digitsValue 0 (c :: cs)).bind (fun n => (JNumber.ofNat n).toFloat64)

/-- The number `1e-400`, positive and below half the smallest positive `float64`. -/
def tinyNumber : JNumber := { neg := false, intPart := 1, frac := none, exp := some (-400) }

/-- The number `1e400`, beyond the largest `float64`. -/
def hugeNumber : JNumber := { neg := false, intPart := 1, frac := none, exp := some 400 }

/-- The members of the body `{"max_speed": 99}`. -/
def speedMembers : List (String × JVal) := [("max_speed", JVal.num (JNumber.ofNat 99))]

/-- The members of the body `{"max_speed": 1e-400}`. -/
def tinySpeedMembers : List (String × JVal) := [("max_speed", JVal.num tinyNumber)]

/-- The members of the body `{"max_speed": 1e400}`. -/
def hugeSpeedMembers : List (String × JVal) := [("max_speed", JVal.num hugeNumber)]

/-- The members of the body `{"max_speed": 99, "note": 1e400}`. -/
def hugeNoteMembers : List (String × JVal) :=
  [("max_speed", JVal.num (JNumber.ofNat 99)), ("note", JVal.num hugeNumber)]

end Sample

set_option exponentiation.threshold 5000

/-! ## Rounding -/

namespace Float64

theorem spanExp_spec : ∀ (fuel j n : Nat), n < 2 ^ 2 ^ (j + fuel + 1) →
    n < 2 ^ 2 ^ (spanExp fuel j n + 1)
  | 0, j, n, h => by simpa [spanExp] using h
  | fuel + 1, j, n, h => by
    unfold spanExp
    by_cases hc : n < 2 ^ 2 ^ (j + 1)
    · simp [hc]
    · simp only [hc, if_false]
      apply spanExp_spec fuel (j + 1) n
      have he : j + 1 + fuel + 1 = j + (fuel + 1) + 1 := by omega
      rw [he]
      exact h

theorem narrow_spec : ∀ (j b n : Nat), 2 ^ b ≤ n → n < 2 ^ (b + 2 ^ (j + 1)) →
    2 ^ narrow j b n ≤ n ∧ n < 2 ^ (narrow j b n + 1)
  | 0, b, n, hlo, hhi => by
    unfold narrow
    by_cases hc : 2 ^ (b + 1) ≤ n
    · rw [if_pos hc]
      refine ⟨hc, ?_⟩
      have he : b + 2 ^ (0 + 1) = b + 1 + 1 := by norm_num
      rw [he] at hhi
      exact hhi
    · rw [if_neg hc]
      exact ⟨hlo, not_le.mp hc⟩
  | j + 1, b, n, hlo, hhi => by
    unfold narrow
    by_cases hc : 2 ^ (b + 2 ^ (j + 1)) ≤ n
    · rw [if_pos hc]
      apply narrow_spec j (b + 2 ^ (j + 1)) n hc
      have he : b + 2 ^ (j + 1 + 1) = b + 2 ^ (j + 1) + 2 ^ (j + 1) := by
        rw [pow_succ 2 (j + 1)]; omega
      rw [← he]
      exact hhi
    · rw [if_neg hc]
      exact narrow_spec j b n hlo (not_le.mp hc)

/-- The binary digits of a positive number: `2 ^ (bitLength n - 1) ≤ n < 2 ^ bitLength n`. -/
theorem bitLength_spec (n : Nat) (hn : n ≠ 0) :
    2 ^ (bitLength n - 1) ≤ n ∧ n < 2 ^ bitLength n := by
  unfold bitLength
  simp only [hn, if_false, Nat.add_sub_cancel]
  apply narrow_spec
  · simpa using Nat.one_le_iff_ne_zero.mpr hn
  · rw [Nat.zero_add]
    apply spanExp_spec
    have h1 : n < 2 ^ n := Nat.lt_two_pow n
    have h2 : n ≤ 2 ^ (0 + n + 1) := by
      have := Nat.lt_two_pow (0 + n + 1)
      omega
    exact lt_of_lt_of_le h1 (Nat.pow_le_pow_right (by norm_num) h2)

theorem lt_two_pow_bitLength (n : Nat) : n < 2 ^ bitLength n := by
  by_cases hn : n = 0
  · subst hn; simp [bitLength]
  · exact (bitLength_spec n hn).2

theorem bitLength_le_of_lt (n k : Nat) (h : n < 2 ^ k) : bitLength n ≤ k := by
  by_cases hn : n = 0
  · subst hn; simp [bitLength]
  · have h1 := (bitLength_spec n hn).1
    have h2 : 2 ^ (bitLength n - 1) < 2 ^ k := lt_of_le_of_lt h1 h
    have h3 : bitLength n - 1 < k := (Nat.pow_lt_pow_iff_right (by norm_num)).mp h2
    omega

theorem bitLength_pos (n : Nat) (hn : n ≠ 0) : 0 < bitLength n := by
  unfold bitLength
  simp [hn]


theorem roundUnits_zero (d : Nat) : roundUnits 0 d = 0 := by
  simp [roundUnits, bitLength]

/-- A number of units with a power of two as denominator-free factor that leaves at most
53 significant digits is its own rounding. -/
theorem roundUnits_of_dvd (x : Nat) (h : 2 ^ (bitLength (x / 1) - 53) ∣ x) :
    roundUnits x 1 = x := by
  unfold roundUnits
  simp only [Nat.one_mul]
  have hmod : x % 2 ^ (bitLength (x / 1) - 53) = 0 := Nat.mod_eq_zero_of_dvd h
  have hpos : 0 < 2 ^ (bitLength (x / 1) - 53) := Nat.two_pow_pos _
  rw [hmod]
  have hc : ¬ (2 ^ (bitLength (x / 1) - 53) < 2 * 0
      ∨ (2 * 0 = 2 ^ (bitLength (x / 1) - 53)
        ∧ x / 2 ^ (bitLength (x / 1) - 53) % 2 = 1)) := by
    rintro (h1 | ⟨h1, _⟩) <;> omega
  rw [if_neg hc]
  exact Nat.div_mul_cancel h

theorem roundUnits_exact_lt (k t : Nat) (hk : k * 2 ^ t < 2 ^ (53 + t)) :
    roundUnits (k * 2 ^ t) 1 = k * 2 ^ t := by
  apply roundUnits_of_dvd
  rw [Nat.div_one]
  have hb : bitLength (k * 2 ^ t) ≤ 53 + t := bitLength_le_of_lt _ _ hk
  have hs : bitLength (k * 2 ^ t) - 53 ≤ t := by omega
  exact Dvd.dvd.mul_left (pow_dvd_pow 2 hs) k

/-- A whole number of at most `2 ^ 53` multiples of a power of two is its own rounding:
it has at most 53 significant binary digits. -/
theorem roundUnits_exact (k t : Nat) (hk : k ≤ 2 ^ 53) :
    roundUnits (k * 2 ^ t) 1 = k * 2 ^ t := by
  rcases Nat.lt_or_ge k (2 ^ 53) with h | h
  · apply roundUnits_exact_lt
    rw [pow_add 2 53 t]
    exact Nat.mul_lt_mul_of_pos_right h (Nat.two_pow_pos _)
  · have hk2 : k = 2 ^ 53 := le_antisymm hk h
    have he : k * 2 ^ t = 2 ^ 52 * 2 ^ (t + 1) := by
      rw [hk2, pow_succ 2 t]
      ring
    rw [he]
    apply roundUnits_exact_lt
    rw [pow_add 2 53 (t + 1)]
    have h52 : (2 : Nat) ^ 52 < 2 ^ 53 := Nat.pow_lt_pow_right (by norm_num) (by norm_num)
    exact Nat.mul_lt_mul_of_pos_right h52 (Nat.two_pow_pos _)

/-- The rounding of a positive rational is zero exactly when the rational is at most one
half (of the unit `2 ^ (-1074)`). -/
theorem roundUnits_eq_zero_iff (n d : Nat) (hd : 0 < d) :
    roundUnits n d = 0 ↔ 2 * n ≤ d := by
  rcases Nat.eq_zero_or_pos (n / d) with h0 | hpos
  · have hlt : n < d := by
      exact (Nat.div_eq_zero_iff hd).mp h0
    unfold roundUnits
    simp only [h0]
    have hb : bitLength 0 = 0 := by simp [bitLength]
    simp only [hb, Nat.zero_sub, pow_zero, Nat.mul_one, h0, Nat.mod_eq_of_lt hlt]
    by_cases hc : d < 2 * n
    · simp [hc]
    · simp [hc]; omega
  · have hge : d ≤ n := by
      by_contra hlt
      rw [Nat.div_eq_of_lt (not_le.mp hlt)] at hpos
      exact absurd hpos (lt_irrefl 0)
    have hne : n / d ≠ 0 := by omega
    have hspec := (bitLength_spec (n / d) hne).1
    have hbpos := bitLength_pos (n / d) hne
    have hs : 2 ^ (bitLength (n / d) - 53) ≤ n / d :=
      le_trans (Nat.pow_le_pow_right (by norm_num) (by omega)) hspec
    have hq : 1 ≤ n / (d * 2 ^ (bitLength (n / d) - 53)) := by
      rw [← Nat.div_div_eq_div_mul]
      exact (Nat.one_le_div_iff (Nat.two_pow_pos _)).mpr hs
    have hp : 0 < 2 ^ (bitLength (n / d) - 53) := Nat.two_pow_pos _
    constructor
    · intro hz
      exfalso
      unfold roundUnits at hz
      simp only [] at hz
      split at hz
      · have hq1 : 0 < n / (d * 2 ^ (bitLength (n / d) - 53)) + 1 := Nat.succ_pos _
        have := Nat.mul_pos hq1 hp
        omega
      · have := Nat.mul_pos hq hp
        omega
    · intro h2
      omega

theorem round_zero (neg : Bool) (d : Nat) : round neg 0 d = finite neg 0 := by
  simp [round, roundUnits_zero, overflowUnits]

/-- The quotient kept by the rounding has at most 53 binary digits. -/
theorem roundUnits_quotient_lt (n d : Nat) :
    n / (d * 2 ^ (bitLength (n / d) - 53)) < 2 ^ 53 := by
  rw [← Nat.div_div_eq_div_mul]
  have hlt := lt_two_pow_bitLength (n / d)
  apply (Nat.div_lt_iff_lt_mul (Nat.two_pow_pos _)).mpr
  rw [← pow_add]
  exact lt_of_lt_of_le hlt (Nat.pow_le_pow_right (by norm_num) (by omega))

/-- Rounding gives a number that is its own rounding. -/
theorem roundUnits_idempotent (n d : Nat) :
    roundUnits (roundUnits n d) 1 = roundUnits n d := by
  have hq := roundUnits_quotient_lt n d
  unfold roundUnits
  simp only []
  split
  · exact roundUnits_exact _ _ hq
  · exact roundUnits_exact _ _ hq.le

/-- The result of rounding is a value a `float64` can hold. -/
theorem round_isValue (neg : Bool) (n d : Nat) : (round neg n d).isValue = true := by
  unfold round
  by_cases ho : overflowUnits ≤ roundUnits n d
  · rw [if_pos ho]; rfl
  · rw [if_neg ho]
    simp only [isValue, Bool.and_eq_true, decide_eq_true_eq]
    exact ⟨not_le.mp ho, roundUnits_idempotent n d⟩

theorem zero_isValue (neg : Bool) : (finite neg 0).isValue = true := by
  simp [isValue, roundUnits_zero, overflowUnits]

/-- The sum of any two values is a value a `float64` can hold. -/
theorem add_isValue (x y : Float64) : (add x y).isValue = true := by
  cases x with
  | nan => cases y <;> rfl
  | inf a =>
    cases y with
    | nan => rfl
    | inf b => by_cases h : a = b <;> simp [add, h, isValue]
    | finite b n => rfl
  | finite a m =>
    cases y with
    | nan => rfl
    | inf b => rfl
    | finite b n =>
      simp only [add]
      split
      · exact round_isValue _ _ _
      · split
        · exact zero_isValue false
        · split
          · exact round_isValue _ _ _
          · exact round_isValue _ _ _

/-- The quotient of any two values is a value a `float64` can hold. -/
theorem div_isValue (x y : Float64) : (div x y).isValue = true := by
  cases x with
  | nan => cases y <;> rfl
  | inf a => cases y <;> rfl
  | finite a m =>
    cases y with
    | nan => rfl
    | inf b => exact zero_isValue _
    | finite b n =>
      simp only [div]
      by_cases hn : n = 0
      · rw [if_pos hn]
        by_cases hm : m = 0
        · rw [if_pos hm]; rfl
        · rw [if_neg hm]; rfl
      · rw [if_neg hn]
        exact round_isValue _ _ _

/-- The conversion of a decimal is a value a `float64` can hold. -/
theorem ofDecimal_isValue (neg : Bool) (coeff : Nat) (exp10 : Int) :
    (ofDecimal neg coeff exp10).isValue = true := by
  unfold ofDecimal
  exact round_isValue _ _ _


theorem overflow_aux_below (Q D R n : Nat) (hn : n = Q * D + R) (hR : R < D)
    (hlt : Q < 9007199254740991) :
    (9007199254740992 ≤ Q + (if D < 2 * R ∨ (2 * R = D ∧ Q % 2 = 1) then 1 else 0))
      ↔ 18014398509481983 * D ≤ 2 * n := by
  have hmul : Q * D ≤ 9007199254740990 * D := Nat.mul_le_mul_right D (by omega)
  constructor
  · intro h
    exfalso
    split at h <;> omega
  · intro h
    exfalso
    omega

theorem overflow_aux_top (D R n : Nat) (hn : n = 9007199254740991 * D + R) :
    (9007199254740992 ≤ 9007199254740991
        + (if D < 2 * R ∨ (2 * R = D ∧ 9007199254740991 % 2 = 1) then 1 else 0))
      ↔ 18014398509481983 * D ≤ 2 * n := by
  constructor
  · intro h
    by_cases hc : D < 2 * R ∨ (2 * R = D ∧ 9007199254740991 % 2 = 1)
    · rcases hc with hc | ⟨hc, _⟩ <;> omega
    · rw [if_neg hc] at h
      omega
  · intro h
    have hcond : D < 2 * R ∨ (2 * R = D ∧ 9007199254740991 % 2 = 1) := by
      rcases Nat.lt_or_ge D (2 * R) with h1 | h1
      · exact Or.inl h1
      · exact Or.inr ⟨by omega, by norm_num⟩
    rw [if_pos hcond]

/-- With a quotient `Q` of 53 binary digits and a remainder `R`, the rounded quotient
reaches `2 ^ 53` exactly when `n = Q * D + R` is at least `(2 ^ 53 - 1 / 2) * D`. -/
theorem overflow_aux (Q D R n : Nat) (hn : n = Q * D + R) (hR : R < D)
    (hQ : Q < 9007199254740992) :
    (9007199254740992 ≤ Q + (if D < 2 * R ∨ (2 * R = D ∧ Q % 2 = 1) then 1 else 0))
      ↔ 18014398509481983 * D ≤ 2 * n := by
  rcases Nat.lt_or_ge Q 9007199254740991 with hlt | hge
  · exact overflow_aux_below Q D R n hn hR hlt
  · have hQe : Q = 9007199254740991 := by omega
    rw [hQe] at hn ⊢
    exact overflow_aux_top D R n hn


theorem roundUnits_eq (n d : Nat) :
    roundUnits n d
      = (n / (d * 2 ^ (bitLength (n / d) - 53))
          + (if d * 2 ^ (bitLength (n / d) - 53) < 2 * (n % (d * 2 ^ (bitLength (n / d) - 53)))
                ∨ (2 * (n % (d * 2 ^ (bitLength (n / d) - 53)))
                      = d * 2 ^ (bitLength (n / d) - 53)
                    ∧ n / (d * 2 ^ (bitLength (n / d) - 53)) % 2 = 1)
              then 1 else 0))
        * 2 ^ (bitLength (n / d) - 53) := by
  unfold roundUnits
  simp only []
  split <;> simp

/-- The magnitudes that round out of range are those from `2 ^ 1024 - 2 ^ 970` on: the
largest `float64` plus half the distance to `2 ^ 1024`.  In units of `2 ^ (-1074)` that
threshold is `2 ^ 2098 - 2 ^ 2044`. -/
theorem overflow_iff (n d : Nat) (hd : 0 < d) :
    overflowUnits ≤ roundUnits n d ↔ d * (2 ^ 2098 - 2 ^ 2044) ≤ n := by
  have hM1 : (2 : Nat) ^ 2097 ≤ 2 ^ 2098 - 2 ^ 2044 := by
    have h1 : (2 : Nat) ^ 2098 = 2 ^ 2097 + 2 ^ 2097 := by
      rw [show (2098 : Nat) = 2097 + 1 from rfl, pow_succ]; omega
    have h2 : (2 : Nat) ^ 2044 ≤ 2 ^ 2097 := Nat.pow_le_pow_right (by norm_num) (by norm_num)
    omega
  have hM2 : (2 : Nat) ^ 2098 - 2 ^ 2044 ≤ 2 ^ 2098 := Nat.sub_le _ _
  have hq := roundUnits_quotient_lt n d
  have hdm : n / d * d ≤ n := Nat.div_mul_le_self n d
  have hlt := lt_two_pow_bitLength (n / d)
  rw [roundUnits_eq]
  unfold overflowUnits
  generalize hc : (if d * 2 ^ (bitLength (n / d) - 53)
      < 2 * (n % (d * 2 ^ (bitLength (n / d) - 53)))
      ∨ (2 * (n % (d * 2 ^ (bitLength (n / d) - 53))) = d * 2 ^ (bitLength (n / d) - 53)
        ∧ n / (d * 2 ^ (bitLength (n / d) - 53)) % 2 = 1) then 1 else 0) = up
  have hup : up ≤ 1 := by
    rw [← hc]; split <;> omega
  rcases Nat.lt_trichotomy (bitLength (n / d)) 2098 with hb | hb | hb
  · -- fewer digits: neither side holds
    have hrhs : ¬ d * (2 ^ 2098 - 2 ^ 2044) ≤ n := by
      intro h
      have h1 : n / d < 2 ^ 2097 :=
        lt_of_lt_of_le hlt (Nat.pow_le_pow_right (by norm_num) (by omega))
      have h2 : n < 2 ^ 2097 * d := (Nat.div_lt_iff_lt_mul hd).mp h1
      have h3 : d * 2 ^ 2097 ≤ d * (2 ^ 2098 - 2 ^ 2044) := Nat.mul_le_mul_left d hM1
      rw [Nat.mul_comm] at h2
      omega
    have hlhs : ¬ 2 ^ 2098 ≤ (n / (d * 2 ^ (bitLength (n / d) - 53)) + up)
        * 2 ^ (bitLength (n / d) - 53) := by
      intro h
      have h1 : (n / (d * 2 ^ (bitLength (n / d) - 53)) + up)
          * 2 ^ (bitLength (n / d) - 53) ≤ 2 ^ 53 * 2 ^ (bitLength (n / d) - 53) :=
        Nat.mul_le_mul_right _ (by omega)
      rw [← pow_add] at h1
      have h2 : (2 : Nat) ^ (53 + (bitLength (n / d) - 53)) ≤ 2 ^ 2097 :=
        Nat.pow_le_pow_right (by norm_num) (by omega)
      have h3 : (2 : Nat) ^ 2097 < 2 ^ 2098 := Nat.pow_lt_pow_right (by norm_num) (by norm_num)
      omega
    exact ⟨fun h => absurd h hlhs, fun h => absurd h hrhs⟩
  · -- the top binade: the tie-breaking decides
    have hs : bitLength (n / d) - 53 = 2045 := by omega
    rw [hs] at hc hq ⊢
    have hsplit : (2 : Nat) ^ 2098 = 9007199254740992 * 2 ^ 2045 := by
      rw [show (2098 : Nat) = 53 + 2045 from rfl, pow_add]
      norm_num
    have hM : 2 * (2 ^ 2098 - 2 ^ 2044) = 18014398509481983 * 2 ^ 2045 := by
      have h44 : (2 : Nat) ^ 2045 = 2 * 2 ^ 2044 := by
        rw [show (2045 : Nat) = 2044 + 1 from rfl, pow_succ]; omega
      rw [hsplit, h44]
      omega
    have hq2 : n / (d * 2 ^ 2045) < 9007199254740992 := by
      have : (2 : Nat) ^ 53 = 9007199254740992 := by norm_num
      omega
    have hdiv : n = n / (d * 2 ^ 2045) * (d * 2 ^ 2045) + n % (d * 2 ^ 2045) :=
      (Nat.div_add_mod' n (d * 2 ^ 2045)).symm
    have hDpos : 0 < d * 2 ^ 2045 := Nat.mul_pos hd (Nat.two_pow_pos _)
    have hR : n % (d * 2 ^ 2045) < d * 2 ^ 2045 := Nat.mod_lt _ hDpos
    have haux := overflow_aux (n / (d * 2 ^ 2045)) (d * 2 ^ 2045) (n % (d * 2 ^ 2045)) n
      hdiv hR hq2
    rw [hc] at haux
    have hL : 2 ^ 2098 ≤ (n / (d * 2 ^ 2045) + up) * 2 ^ 2045
        ↔ 9007199254740992 ≤ n / (d * 2 ^ 2045) + up := by
      rw [hsplit]
      exact mul_le_mul_right (Nat.two_pow_pos 2045)
    have he : 18014398509481983 * (d * 2 ^ 2045) = 2 * (d * (2 ^ 2098 - 2 ^ 2044)) := by
      rw [Nat.mul_left_comm 2 d, hM, Nat.mul_left_comm]
    rw [hL, haux, he]
    omega
  · -- more digits: both sides hold
    have hne : n / d ≠ 0 := by
      intro h0
      rw [h0] at hb
      simp [bitLength] at hb
    have hspec := (bitLength_spec (n / d) hne).1
    have h98 : (2 : Nat) ^ 2098 ≤ 2 ^ (bitLength (n / d) - 1) :=
      Nat.pow_le_pow_right (by norm_num) (by omega)
    have hrhs : d * (2 ^ 2098 - 2 ^ 2044) ≤ n := by
      have h1 : d * (2 ^ 2098 - 2 ^ 2044) ≤ d * (n / d) :=
        Nat.mul_le_mul_left d (le_trans hM2 (le_trans h98 hspec))
      rw [Nat.mul_comm d (n / d)] at h1
      omega
    have hlhs : 2 ^ 2098 ≤ (n / (d * 2 ^ (bitLength (n / d) - 53)) + up)
        * 2 ^ (bitLength (n / d) - 53) := by
      have hQ : 2 ^ 52 ≤ n / (d * 2 ^ (bitLength (n / d) - 53)) := by
        rw [← Nat.div_div_eq_div_mul]
        apply (Nat.le_div_iff_mul_le (Nat.two_pow_pos _)).mpr
        rw [← pow_add]
        have he : 52 + (bitLength (n / d) - 53) = bitLength (n / d) - 1 := by omega
        rw [he]
        exact hspec
      have h1 : 2 ^ 52 * 2 ^ (bitLength (n / d) - 53)
          ≤ (n / (d * 2 ^ (bitLength (n / d) - 53)) + up) * 2 ^ (bitLength (n / d) - 53) :=
        Nat.mul_le_mul_right _ (by omega)
      rw [← pow_add] at h1
      have he : 52 + (bitLength (n / d) - 53) = bitLength (n / d) - 1 := by omega
      rw [he] at h1
      exact le_trans h98 h1
    exact ⟨fun _ => hrhs, fun _ => hlhs⟩

end Float64

/-! ## Lookup lemmas for the copying loops -/

namespace repository

open internal

theorem lookup_copyStep (cond : Vehicle → Bool) (acc : Store) (e : (_ : Int) × Vehicle)
    (k : Int) :
    (copyStep cond acc e).lookup k
      = if k = e.1 ∧ cond e.2 = true then some e.2 else acc.lookup k := by
  unfold copyStep
  by_cases hc : cond e.2 = true
  · by_cases hk : k = e.1
    · subst hk
      simp [hc, AList.lookup_insert]
    · simp [hc, hk, AList.lookup_insert_ne hk]
  · simp [hc]

theorem lookup_foldl_copyStep (cond : Vehicle → Bool) :
    ∀ (l : List ((_ : Int) × Vehicle)), l.NodupKeys → ∀ (v0 : Store) (k : Int),
      (l.foldl (copyStep cond) v0).lookup k
        = match l.dlookup k with
          | some x => if cond x = true then some x else v0.lookup k
          | none => v0.lookup k
  | [], _, v0, k => by simp
  | e :: l, hl, v0, k => by
    have hl2 := List.nodupKeys_cons.mp hl
    rw [List.foldl_cons, lookup_foldl_copyStep cond l hl2.2 (copyStep cond v0 e) k,
      lookup_copyStep]
    by_cases hk : k = e.1
    · subst hk
      have hnone : l.dlookup e.1 = none := List.dlookup_eq_none.mpr hl2.1
      rw [hnone, List.dlookup_cons_eq]
      simp
    · rw [List.dlookup_cons_ne l e hk]
      simp [hk]

/-- The map a copying loop builds from the empty map holds, under each key, the record
of `db` under that key when it passes the test, and nothing else. -/
theorem lookup_copyWhere_some (cond : Vehicle → Bool) (db : Store) (k : Int) (x : Vehicle) :
    (copyWhere cond db ∅).lookup k = some x ↔ db.lookup k = some x ∧ cond x = true := by
  unfold copyWhere
  rw [lookup_foldl_copyStep cond db.entries db.nodupKeys ∅ k]
  have hdb : db.lookup k = db.entries.dlookup k := rfl
  rw [hdb]
  cases hlk : db.entries.dlookup k with
  | none => simp
  | some y =>
    by_cases hc : cond y = true
    · simp only [hc, if_true, Option.some.injEq]
      constructor
      · intro h; subst h; exact ⟨rfl, hc⟩
      · intro h; exact h.1
    · simp only [hc, AList.lookup_empty, Option.some.injEq]
      constructor
      · intro h; simp at h
      · rintro ⟨h1, h2⟩; subst h1; exact absurd h2 hc

theorem entries_length_eq_zero_iff (v : Store) :
    v.entries.length = 0 ↔ ∀ k, v.lookup k = none := by
  constructor
  · intro h k
    have he : v.entries = [] := List.length_eq_zero.mp h
    show v.entries.dlookup k = none
    rw [he]; rfl
  · intro h
    cases hv : v.entries with
    | nil => rfl
    | cons e l =>
      exfalso
      have h2 : v.entries.dlookup e.1 = none := h e.1
      rw [hv, List.dlookup_cons_eq] at h2
      cases h2

/-- The map a copying loop builds is empty exactly when no record passes the test. -/
theorem copyWhere_length_eq_zero_iff (cond : Vehicle → Bool) (db : Store) :
    (copyWhere cond db ∅).entries.length = 0
      ↔ ¬ ∃ k x, db.lookup k = some x ∧ cond x = true := by
  rw [entries_length_eq_zero_iff]
  constructor
  · rintro h ⟨k, x, hx⟩
    have := (lookup_copyWhere_some cond db k x).mpr hx
    rw [h k] at this
    cases this
  · intro h k
    cases hlk : (copyWhere cond db ∅).lookup k with
    | none => rfl
    | some x => exact absurd ⟨k, x, (lookup_copyWhere_some cond db k x).mp hlk⟩ h

/-- The copy `FindAll` returns has the same record as `db` under every key. -/
theorem lookup_FindAll (db : Store) (k : Int) : (FindAll db).1.lookup k = db.lookup k := by
  apply Option.ext
  intro x
  simp [FindAll, Option.mem_def, lookup_copyWhere_some]

/-! ## The first loop of `CreateBatch` -/

theorem batchCollision_eq_none_iff (db : Store) :
    ∀ vs : List Vehicle, batchCollision db vs = none ↔ ∀ v ∈ vs, v.Id ∉ db
  | [] => by simp [batchCollision]
  | v :: rest => by
    have ih := batchCollision_eq_none_iff db rest
    cases hl : db.lookup v.Id with
    | none =>
      have hv : v.Id ∉ db := AList.lookup_eq_none.mp hl
      simp [batchCollision, hl, ih, hv]
    | some x =>
      have hv : v.Id ∈ db := AList.lookup_isSome.mp (by rw [hl]; rfl)
      simp [batchCollision, hl, hv]

/-- The second loop of `CreateBatch` on a batch of pairwise distinct identifiers none of
which is a key: every vehicle is inserted, no other key changes, no error. -/
theorem batchInsert_distinct :
    ∀ (vs : List Vehicle) (db : Store), (vs.map (fun v => v.Id)).Nodup →
      (∀ v ∈ vs, v.Id ∉ db) →
      (batchInsert db vs).2 = none
        ∧ (∀ v ∈ vs, (batchInsert db vs).1.lookup v.Id = some v)
        ∧ ∀ k, (∀ v ∈ vs, v.Id ≠ k) → (batchInsert db vs).1.lookup k = db.lookup k
  | [], db, _, _ => by simp [batchInsert]
  | v :: rest, db, hnd, hfresh => by
    have hv : db.lookup v.Id = none := AList.lookup_eq_none.mpr (hfresh v (by simp))
    have hnd2 : v.Id ∉ rest.map (fun v => v.Id) ∧ (rest.map (fun v => v.Id)).Nodup :=
      List.nodup_cons.mp hnd
    have hstep : batchInsert db (v :: rest) = batchInsert (db.insert v.Id v) rest := by
      simp [batchInsert, Create, hv]
    have hfresh2 : ∀ w ∈ rest, w.Id ∉ db.insert v.Id v := by
      intro w hw hmem
      rcases (AList.mem_insert db).mp hmem with h | h
      · exact hnd2.1 (List.mem_map.mpr ⟨w, hw, h⟩)
      · exact hfresh w (by simp [hw]) h
    obtain ⟨h1, h2, h3⟩ := batchInsert_distinct rest (db.insert v.Id v) hnd2.2 hfresh2
    rw [hstep]
    refine ⟨h1, ?_, ?_⟩
    · intro w hw
      rcases List.mem_cons.mp hw with h | h
      · subst h
        rw [h3 w.Id (fun u hu hne => hnd2.1 (List.mem_map.mpr ⟨u, hu, hne⟩))]
        exact AList.lookup_insert db
      · exact h2 w h
    · intro k hk
      rw [h3 k (fun u hu => hk u (by simp [hu]))]
      exact AList.lookup_insert_ne (Ne.symm (hk v (by simp)))

end repository

/-! ## The repository contract -/

section RepositoryContract

open internal repository

/-- Supporting fact for C1 and C2: on a batch whose identifiers are pairwise distinct and
none of which is a key of the store, `CreateBatch` returns no error, every vehicle of the
batch is in the store afterwards under its identifier, and every other key is as
before. -/
theorem CreateBatch_fresh_distinct (db : Store) (vs : List Vehicle)
    (hnd : (vs.map (fun v => v.Id)).Nodup) (hfresh : ∀ v ∈ vs, v.Id ∉ db) :
    (CreateBatch db vs).2 = none
      ∧ (∀ v ∈ vs, (CreateBatch db vs).1.lookup v.Id = some v)
      ∧ ∀ k, (∀ v ∈ vs, v.Id ≠ k) → (CreateBatch db vs).1.lookup k = db.lookup k := by
  have hc : batchCollision db vs = none := (batchCollision_eq_none_iff db vs).mpr hfresh
  have hb : CreateBatch db vs = batchInsert db vs := by simp [CreateBatch, hc]
  rw [hb]
  exact batchInsert_distinct vs db hnd hfresh

/-- C1, evaluated where the code departs from it: the batch `[corolla, hondaTwin]` repeats
the identifier 1, which is not a key of the empty store.  `CreateBatch` passes its
pre-check, inserts the Corolla, fails on the twin, and returns that error with the
Corolla left in the store: neither everything nor nothing of the batch was inserted. -/
theorem CreateBatch_repeated_id_partial :
    (∀ v ∈ [Sample.corolla, Sample.hondaTwin], v.Id ∉ (∅ : Store))
      ∧ (CreateBatch ∅ [Sample.corolla, Sample.hondaTwin]).2
          = some (RepoError.creating "Honda" "M" 1 (RepoError.alreadyExists 1))
      ∧ (CreateBatch ∅ [Sample.corolla, Sample.hondaTwin]).1.lookup 1 = some Sample.corolla
      ∧ (CreateBatch ∅ [Sample.corolla, Sample.hondaTwin]).1.keys = [1] := by
  decide

/-- C2: when some vehicle of the batch has an identifier that is already a key of the
store, `CreateBatch` returns an error and the store afterwards equals the store before,
wherever that vehicle sits in the batch. -/
theorem CreateBatch_collision_unchanged (db : Store) (vs : List Vehicle)
    (h : ∃ v ∈ vs, v.Id ∈ db) :
    (CreateBatch db vs).2 ≠ none ∧ (CreateBatch db vs).1 = db := by
  have hc : batchCollision db vs ≠ none := by
    intro hn
    obtain ⟨v, hv, hmem⟩ := h
    exact (batchCollision_eq_none_iff db vs).mp hn v hv hmem
  cases hbc : batchCollision db vs with
  | none => exact absurd hbc hc
  | some err => simp [CreateBatch, hbc]

theorem CreateBatch_collision_unchanged_witness :
    (∃ v ∈ [Sample.civic, Sample.hondaTwin], v.Id ∈ Sample.toyotas)
      ∧ (CreateBatch Sample.toyotas [Sample.civic, Sample.hondaTwin]).2 ≠ none
      ∧ (CreateBatch Sample.toyotas [Sample.civic, Sample.hondaTwin]).1 = Sample.toyotas :=
  ⟨by decide,
    CreateBatch_collision_unchanged Sample.toyotas [Sample.civic, Sample.hondaTwin]
      (by decide)⟩

/-- C3: `Create` of a vehicle whose identifier is already a key returns an error and
leaves the store unchanged: the store is the same map, so the record under that
identifier is not overwritten and no other record changes. -/
theorem Create_existing_id (db : Store) (v : Vehicle) (h : v.Id ∈ db) :
    (Create db v).2 = some (RepoError.alreadyExists v.Id)
      ∧ (Create db v).1 = db
      ∧ ∀ k, (Create db v).1.lookup k = db.lookup k := by
  have hs : (db.lookup v.Id).isSome := AList.lookup_isSome.mpr h
  cases hl : db.lookup v.Id with
  | none => rw [hl] at hs; cases hs
  | some x => simp [Create, hl]

theorem Create_existing_id_witness :
    Sample.hondaTwin.Id ∈ Sample.toyotas
      ∧ (Create Sample.toyotas Sample.hondaTwin).2 = some (RepoError.alreadyExists 1)
      ∧ (Create Sample.toyotas Sample.hondaTwin).1 = Sample.toyotas
      ∧ ∀ k, (Create Sample.toyotas Sample.hondaTwin).1.lookup k = Sample.toyotas.lookup k :=
  ⟨by decide, Create_existing_id Sample.toyotas Sample.hondaTwin (by decide)⟩

/-- C4: `Create` of a vehicle whose identifier is not a key returns no error, and the map
a following `FindAll` returns (itself without error) holds the vehicle under its
identifier and, under every other key, exactly what the store held before. -/
theorem Create_fresh_then_FindAll (db : Store) (v : Vehicle) (h : v.Id ∉ db) :
    (Create db v).2 = none
      ∧ (FindAll (Create db v).1).2 = none
      ∧ (FindAll (Create db v).1).1.lookup v.Id = some v
      ∧ ∀ k, k ≠ v.Id → (FindAll (Create db v).1).1.lookup k = db.lookup k := by
  have hl : db.lookup v.Id = none := AList.lookup_eq_none.mpr h
  have hc : Create db v = (db.insert v.Id v, none) := by simp [Create, hl]
  rw [hc]
  refine ⟨rfl, rfl, ?_, ?_⟩
  · rw [lookup_FindAll]
    exact AList.lookup_insert db
  · intro k hk
    rw [lookup_FindAll]
    exact AList.lookup_insert_ne hk

theorem Create_fresh_then_FindAll_witness :
    Sample.civic.Id ∉ Sample.toyotas
      ∧ (Create Sample.toyotas Sample.civic).2 = none
      ∧ (FindAll (Create Sample.toyotas Sample.civic).1).2 = none
      ∧ (FindAll (Create Sample.toyotas Sample.civic).1).1.lookup Sample.civic.Id
          = some Sample.civic
      ∧ ∀ k, k ≠ Sample.civic.Id →
          (FindAll (Create Sample.toyotas Sample.civic).1).1.lookup k
            = Sample.toyotas.lookup k :=
  ⟨by decide, Create_fresh_then_FindAll Sample.toyotas Sample.civic (by decide)⟩

/-- C5: `UpdateSpeed id s` on a store whose record under `id` is `v` returns no error,
after it the record under `id` has max speed `s` and the identifier, brand, model,
registration, color, year, capacity, fuel type, transmission, weight, height, length and
width of `v`, and every other key holds what it held; when `id` is not a key it returns
an error and the store is unchanged. -/
theorem UpdateSpeed_frame (db : Store) (id : Int) (s : Float64) :
    (∀ v, db.lookup id = some v →
        (UpdateSpeed db id s).2 = none
          ∧ (∃ w, (UpdateSpeed db id s).1.lookup id = some w
              ∧ w.MaxSpeed = s ∧ w.Id = v.Id ∧ w.Brand = v.Brand ∧ w.Model = v.Model
              ∧ w.Registration = v.Registration ∧ w.Color = v.Color
              ∧ w.FabricationYear = v.FabricationYear ∧ w.Capacity = v.Capacity
              ∧ w.FuelType = v.FuelType ∧ w.Transmission = v.Transmission
              ∧ w.Weight = v.Weight ∧ w.Height = v.Height ∧ w.Length = v.Length
              ∧ w.Width = v.Width)
          ∧ ∀ k, k ≠ id → (UpdateSpeed db id s).1.lookup k = db.lookup k)
      ∧ (id ∉ db →
          (UpdateSpeed db id s).2 = some (RepoError.notFound id)
            ∧ (UpdateSpeed db id s).1 = db) := by
  constructor
  · intro v hv
    have hu : UpdateSpeed db id s = (db.insert id { v with MaxSpeed := s }, none) := by
      simp [UpdateSpeed, hv]
    rw [hu]
    refine ⟨rfl, ⟨{ v with MaxSpeed := s }, AList.lookup_insert db, ?_⟩, ?_⟩
    · simp
    · intro k hk
      exact AList.lookup_insert_ne hk
  · intro h
    have hl : db.lookup id = none := AList.lookup_eq_none.mpr h
    simp [UpdateSpeed, hl]

theorem UpdateSpeed_frame_witness :
    Sample.toyotas.lookup 1 = some Sample.corolla
      ∧ (7 : Int) ∉ Sample.toyotas
      ∧ (UpdateSpeed Sample.toyotas 1 (Float64.ofNat 99)).2 = none
      ∧ (∀ k, k ≠ 1 → (UpdateSpeed Sample.toyotas 1 (Float64.ofNat 99)).1.lookup k = Sample.toyotas.lookup k)
      ∧ (UpdateSpeed Sample.toyotas 7 (Float64.ofNat 99)).2 = some (RepoError.notFound 7)
      ∧ (UpdateSpeed Sample.toyotas 7 (Float64.ofNat 99)).1 = Sample.toyotas :=
  ⟨by decide, by decide,
    ((UpdateSpeed_frame Sample.toyotas 1 (Float64.ofNat 99)).1 Sample.corolla (by decide)).1,
    ((UpdateSpeed_frame Sample.toyotas 1 (Float64.ofNat 99)).1 Sample.corolla (by decide)).2.2,
    ((UpdateSpeed_frame Sample.toyotas 7 (Float64.ofNat 99)).2 (by decide)).1,
    ((UpdateSpeed_frame Sample.toyotas 7 (Float64.ofNat 99)).2 (by decide)).2⟩

/-- C6: `Delete id` for a key `id` returns no error, the map a following `FindAll`
returns has no entry for `id` and holds under every other key what the store held, and
a second `Delete id` returns an error and leaves the store as the first one left it;
`Delete id` for an `id` that is not a key returns an error and leaves the store
unchanged. -/
theorem Delete_contract (db : Store) (id : Int) :
    (id ∈ db →
        (Delete db id).2 = none
          ∧ (FindAll (Delete db id).1).1.lookup id = none
          ∧ (∀ k, k ≠ id → (FindAll (Delete db id).1).1.lookup k = db.lookup k)
          ∧ (Delete (Delete db id).1 id).2 = some (RepoError.notFound id)
          ∧ (Delete (Delete db id).1 id).1 = (Delete db id).1)
      ∧ (id ∉ db →
          (Delete db id).2 = some (RepoError.notFound id) ∧ (Delete db id).1 = db) := by
  constructor
  · intro h
    have hs : (db.lookup id).isSome := AList.lookup_isSome.mpr h
    cases hl : db.lookup id with
    | none => rw [hl] at hs; cases hs
    | some x =>
      have hd : Delete db id = (db.erase id, none) := by simp [Delete, hl]
      have he : (db.erase id).lookup id = none := AList.lookup_erase id db
      rw [hd]
      refine ⟨rfl, ?_, ?_, ?_, ?_⟩
      · rw [lookup_FindAll]; exact he
      · intro k hk
        rw [lookup_FindAll]
        exact AList.lookup_erase_ne hk
      · simp [Delete, he]
      · simp [Delete, he]
  · intro h
    have hl : db.lookup id = none := AList.lookup_eq_none.mpr h
    simp [Delete, hl]

theorem Delete_contract_witness :
    (1 : Int) ∈ Sample.toyotas
      ∧ (7 : Int) ∉ Sample.toyotas
      ∧ (Delete Sample.toyotas 1).2 = none
      ∧ (FindAll (Delete Sample.toyotas 1).1).1.lookup 1 = none
      ∧ (Delete (Delete Sample.toyotas 1).1 1).2 = some (RepoError.notFound 1)
      ∧ (Delete Sample.toyotas 7).2 = some (RepoError.notFound 7)
      ∧ (Delete Sample.toyotas 7).1 = Sample.toyotas :=
  ⟨by decide, by decide,
    ((Delete_contract Sample.toyotas 1).1 (by decide)).1,
    ((Delete_contract Sample.toyotas 1).1 (by decide)).2.1,
    ((Delete_contract Sample.toyotas 1).1 (by decide)).2.2.2.1,
    ((Delete_contract Sample.toyotas 7).2 (by decide)).1,
    ((Delete_contract Sample.toyotas 7).2 (by decide)).2⟩

end RepositoryContract

/-! ## Queries -/

section Queries

open internal repository

/-- The result of `AverageSpeed` depends on the order in which the map is visited: with
speeds `10 ^ 16`, 1 and 1, adding the two ones first keeps them, adding them one at a
time to `10 ^ 16` loses both. -/
theorem averageOver_depends_on_order :
    averageOver Sample.unevenKias "Kia" ≠ averageOver Sample.unevenKias.reverse "Kia" := by
  decide

/-- The sample length is the `float64` that the decimal `2.5` denotes. -/
theorem Sample.twoAndHalf_eq : Sample.twoAndHalf = Float64.ofDecimal false 25 (-1) := by
  decide

/-- The test of the loop of `FindByDimensions`, as a proposition. -/
theorem dimensions_test_iff (a b c d : Float64) (v : Vehicle) :
    (decide (v.Length ≥ a) && decide (v.Length ≤ b) && decide (v.Width ≥ c)
        && decide (v.Width ≤ d)) = true
      ↔ a ≤ v.Length ∧ v.Length ≤ b ∧ c ≤ v.Width ∧ v.Width ≤ d := by
  simp [and_assoc]

/-- The test of the loop of `FindByBrandRange`, as a proposition. -/
theorem brandRange_test_iff (brand : String) (ys ye : Int) (v : Vehicle) :
    (v.Brand == brand && decide (v.FabricationYear ≥ ys) && decide (v.FabricationYear ≤ ye))
        = true
      ↔ v.Brand = brand ∧ ys ≤ v.FabricationYear ∧ v.FabricationYear ≤ ye := by
  simp [and_assoc]

theorem FindByDimensions_fst (db : Store) (a b c d : Float64) :
    (FindByDimensions db a b c d).1
      = copyWhere (fun value => decide (value.Length ≥ a) && decide (value.Length ≤ b)
          && decide (value.Width ≥ c) && decide (value.Width ≤ d)) db ∅ := by
  unfold FindByDimensions
  simp only []
  split <;> rfl

theorem FindByDimensions_snd (db : Store) (a b c d : Float64) :
    (FindByDimensions db a b c d).2 ≠ none
      ↔ (copyWhere (fun value => decide (value.Length ≥ a) && decide (value.Length ≤ b)
          && decide (value.Width ≥ c) && decide (value.Width ≤ d)) db ∅).entries.length = 0 := by
  unfold FindByDimensions
  simp only []
  split <;> simp [*]

theorem FindByBrandRange_fst (db : Store) (brand : String) (ys ye : Int) :
    (FindByBrandRange db brand ys ye).1
      = copyWhere (fun value => value.Brand == brand
          && decide (value.FabricationYear ≥ ys) && decide (value.FabricationYear ≤ ye)) db ∅ := by
  unfold FindByBrandRange
  simp only []
  split <;> rfl

theorem FindByBrandRange_snd (db : Store) (brand : String) (ys ye : Int) :
    (FindByBrandRange db brand ys ye).2 ≠ none
      ↔ (copyWhere (fun value => value.Brand == brand
          && decide (value.FabricationYear ≥ ys)
          && decide (value.FabricationYear ≤ ye)) db ∅).entries.length = 0 := by
  unfold FindByBrandRange
  simp only []
  split <;> simp [*]

/-- C8: the map `FindByDimensions` returns holds, each under its own key and unmodified,
exactly the records of the store with `minLength ≤ length ≤ maxLength` and
`minWidth ≤ width ≤ maxWidth` (so it does whenever no error is returned), and an error is
returned exactly when no record satisfies both.  With bounds (1, 2, 1, 2) a record of
length 1 and width 2 is returned, without error, and a record of length 2.5 is not.
The comparisons are those of `float64`. -/
theorem FindByDimensions_contract (db : Store) (minLength maxLength minWidth maxWidth : Float64) :
    (∀ k v, (FindByDimensions db minLength maxLength minWidth maxWidth).1.lookup k = some v
        ↔ db.lookup k = some v ∧ minLength ≤ v.Length ∧ v.Length ≤ maxLength
            ∧ minWidth ≤ v.Width ∧ v.Width ≤ maxWidth)
      ∧ ((FindByDimensions db minLength maxLength minWidth maxWidth).2 ≠ none
          ↔ ¬ ∃ k v, db.lookup k = some v ∧ minLength ≤ v.Length ∧ v.Length ≤ maxLength
              ∧ minWidth ≤ v.Width ∧ v.Width ≤ maxWidth)
      ∧ (∀ k v, db.lookup k = some v → v.Length = 1 → v.Width = 2 →
          (FindByDimensions db 1 2 1 2).2 = none
            ∧ (FindByDimensions db 1 2 1 2).1.lookup k = some v)
      ∧ (∀ k v, db.lookup k = some v → v.Length = Sample.twoAndHalf →
          (FindByDimensions db 1 2 1 2).1.lookup k = none) := by
  have hlook : ∀ (a b c d : Float64) k v, (FindByDimensions db a b c d).1.lookup k = some v
      ↔ db.lookup k = some v ∧ a ≤ v.Length ∧ v.Length ≤ b ∧ c ≤ v.Width ∧ v.Width ≤ d := by
    intro a b c d k v
    rw [FindByDimensions_fst, lookup_copyWhere_some, dimensions_test_iff]
  have herr : ∀ (a b c d : Float64), (FindByDimensions db a b c d).2 ≠ none
      ↔ ¬ ∃ k v, db.lookup k = some v ∧ a ≤ v.Length ∧ v.Length ≤ b
          ∧ c ≤ v.Width ∧ v.Width ≤ d := by
    intro a b c d
    rw [FindByDimensions_snd, copyWhere_length_eq_zero_iff]
    simp only [dimensions_test_iff]
  refine ⟨hlook _ _ _ _, herr _ _ _ _, ?_, ?_⟩
  · intro k v hk hl hw
    have hin : db.lookup k = some v ∧ (1 : Float64) ≤ v.Length ∧ v.Length ≤ 2
        ∧ (1 : Float64) ≤ v.Width ∧ v.Width ≤ 2 := by
      rw [hl, hw]
      exact ⟨hk, by decide, by decide, by decide, by decide⟩
    refine ⟨?_, (hlook 1 2 1 2 k v).mpr hin⟩
    by_contra hne
    exact (herr 1 2 1 2).mp hne ⟨k, v, hin⟩
  · intro k v hk hl
    cases hr : (FindByDimensions db 1 2 1 2).1.lookup k with
    | none => rfl
    | some w =>
      exfalso
      have hw := (hlook 1 2 1 2 k w).mp hr
      have hvw : v = w := Option.some.inj (hk.symm.trans hw.1)
      subst hvw
      rw [hl] at hw
      exact absurd hw.2.2.1 (by decide)

theorem FindByDimensions_contract_witness :
    Sample.toyotas.lookup 1 = some Sample.corolla
      ∧ Sample.corolla.Length = 1 ∧ Sample.corolla.Width = 2
      ∧ Sample.toyotas.lookup 2 = some Sample.camry
      ∧ Sample.camry.Length = Sample.twoAndHalf
      ∧ (FindByDimensions Sample.toyotas 1 2 1 2).2 = none
      ∧ (FindByDimensions Sample.toyotas 1 2 1 2).1.lookup 1 = some Sample.corolla
      ∧ (FindByDimensions Sample.toyotas 1 2 1 2).1.lookup 2 = none :=
  ⟨by decide, by decide, by decide, by decide, by decide,
    ((FindByDimensions_contract Sample.toyotas 1 2 1 2).2.2.1 1 Sample.corolla
      (by decide) (by decide) (by decide)).1,
    ((FindByDimensions_contract Sample.toyotas 1 2 1 2).2.2.1 1 Sample.corolla
      (by decide) (by decide) (by decide)).2,
    (FindByDimensions_contract Sample.toyotas 1 2 1 2).2.2.2 2 Sample.camry
      (by decide) (by decide)⟩

/-- C9: `FindByBrandRange b startYear endYear` returns an error exactly when no record
has brand `b` and a fabrication year `y` with `startYear ≤ y ≤ endYear`; the map it
returns holds exactly those records, each under its own key (a year equal to either
bound is inside the range); and it always returns an error when
`startYear > endYear`. -/
theorem FindByBrandRange_contract (db : Store) (b : String) (startYear endYear : Int) :
    ((FindByBrandRange db b startYear endYear).2 ≠ none
        ↔ ¬ ∃ k v, db.lookup k = some v ∧ v.Brand = b
            ∧ startYear ≤ v.FabricationYear ∧ v.FabricationYear ≤ endYear)
      ∧ (∀ k v, (FindByBrandRange db b startYear endYear).1.lookup k = some v
          ↔ db.lookup k = some v ∧ v.Brand = b
              ∧ startYear ≤ v.FabricationYear ∧ v.FabricationYear ≤ endYear)
      ∧ (∀ k v, db.lookup k = some v → v.Brand = b →
          (v.FabricationYear = startYear ∨ v.FabricationYear = endYear) →
          startYear ≤ endYear →
          (FindByBrandRange db b startYear endYear).2 = none
            ∧ (FindByBrandRange db b startYear endYear).1.lookup k = some v)
      ∧ (startYear > endYear → (FindByBrandRange db b startYear endYear).2 ≠ none) := by
  have hlook : ∀ k v, (FindByBrandRange db b startYear endYear).1.lookup k = some v
      ↔ db.lookup k = some v ∧ v.Brand = b
          ∧ startYear ≤ v.FabricationYear ∧ v.FabricationYear ≤ endYear := by
    intro k v
    rw [FindByBrandRange_fst, lookup_copyWhere_some, brandRange_test_iff]
  have herr : (FindByBrandRange db b startYear endYear).2 ≠ none
      ↔ ¬ ∃ k v, db.lookup k = some v ∧ v.Brand = b
          ∧ startYear ≤ v.FabricationYear ∧ v.FabricationYear ≤ endYear := by
    rw [FindByBrandRange_snd, copyWhere_length_eq_zero_iff]
    simp only [brandRange_test_iff]
  refine ⟨herr, hlook, ?_, ?_⟩
  · intro k v hk hb hy hle
    have hin : db.lookup k = some v ∧ v.Brand = b
        ∧ startYear ≤ v.FabricationYear ∧ v.FabricationYear ≤ endYear := by
      rcases hy with hy | hy
      · exact ⟨hk, hb, by omega, by omega⟩
      · exact ⟨hk, hb, by omega, by omega⟩
    refine ⟨?_, (hlook k v).mpr hin⟩
    by_contra hne
    exact herr.mp hne ⟨k, v, hin⟩
  · intro hgt
    apply herr.mpr
    rintro ⟨k, v, _, _, h1, h2⟩
    omega

theorem FindByBrandRange_contract_witness :
    Sample.toyotas.lookup 1 = some Sample.corolla
      ∧ Sample.corolla.Brand = "Toyota" ∧ Sample.corolla.FabricationYear = 2020
      ∧ (FindByBrandRange Sample.toyotas "Toyota" 2020 2022).2 = none
      ∧ (FindByBrandRange Sample.toyotas "Toyota" 2020 2022).1.lookup 1 = some Sample.corolla
      ∧ (FindByBrandRange Sample.toyotas "Toyota" 2022 2020).2 ≠ none :=
  ⟨by decide, by decide, by decide,
    ((FindByBrandRange_contract Sample.toyotas "Toyota" 2020 2022).2.2.1 1 Sample.corolla
      (by decide) (by decide) (Or.inl (by decide)) (by decide)).1,
    ((FindByBrandRange_contract Sample.toyotas "Toyota" 2020 2022).2.2.1 1 Sample.corolla
      (by decide) (by decide) (Or.inl (by decide)) (by decide)).2,
    (FindByBrandRange_contract Sample.toyotas "Toyota" 2022 2020).2.2.2 (by decide)⟩

end Queries

/-! ## Decoding of request bodies -/

section Decoding

open internal repository

/-- A number that `ParseFloat` accepts gives a finite `float64` with the sign of the
number: the rounding of its magnitude. -/
theorem JNumber.toFloat64_eq_some (n : JNumber) (x : Float64) (h : n.toFloat64 = some x) :
    x = Float64.finite n.neg (Float64.roundUnits n.unitsNum n.unitsDen) := by
  unfold JNumber.toFloat64 Float64.ofDecimal Float64.round at h
  unfold JNumber.unitsNum JNumber.unitsDen
  split at h
  · cases h
  · rename_i hx
    by_cases ho : Float64.overflowUnits
        ≤ Float64.roundUnits (Float64.decimalNum n.coeff n.exp10) (Float64.decimalDen n.exp10)
    · rw [if_pos ho] at hx
      exact absurd rfl (hx n.neg)
    · rw [if_neg ho] at h
      cases h
      rfl

/-- A number is out of the range of `float64` exactly when its magnitude is at least
`2 ^ 1024 - 2 ^ 970`, which is `2 ^ 2098 - 2 ^ 2044` units of `2 ^ (-1074)`. -/
theorem JNumber.toFloat64_eq_none_iff (n : JNumber) :
    n.toFloat64 = none ↔ n.unitsDen * (2 ^ 2098 - 2 ^ 2044) ≤ n.unitsNum := by
  have hden : 0 < n.unitsDen := by
    unfold JNumber.unitsDen Float64.decimalDen
    split
    · exact Nat.one_pos
    · exact pow_pos (by norm_num) _
  rw [← Float64.overflow_iff n.unitsNum n.unitsDen hden]
  unfold JNumber.toFloat64 Float64.ofDecimal Float64.round JNumber.unitsNum JNumber.unitsDen
  by_cases ho : Float64.overflowUnits
      ≤ Float64.roundUnits (Float64.decimalNum n.coeff n.exp10) (Float64.decimalDen n.exp10)
  · simp [ho]
  · simp [ho]

theorem Float64.decimalDen_pos (exp10 : Int) : 0 < Float64.decimalDen exp10 := by
  unfold Float64.decimalDen
  split
  · exact Nat.one_pos
  · exact pow_pos (by norm_num) _

theorem JVal.toAny_eq_none_iff (v : JVal) : v.toAny = none ↔ v.decodes = false := by
  cases v with
  | null => simp [JVal.toAny, JVal.decodes]
  | bool b => simp [JVal.toAny, JVal.decodes]
  | num n => cases h : n.toFloat64 <;> simp [JVal.toAny, JVal.decodes, h]
  | str s => simp [JVal.toAny, JVal.decodes]
  | arr items => by_cases h : JVal.allDecode items = true <;> simp [JVal.toAny, JVal.decodes, h]
  | obj members =>
    by_cases h : JVal.membersDecode members = true <;> simp [JVal.toAny, JVal.decodes, h]

/-- Decoding an object into a map fails exactly when some number in it is out of
range. -/
theorem handler.objectToMap_eq_none_iff :
    ∀ (members : List (String × JVal)) (m : GoMap String GoAny),
      handler.objectToMap members m = none ↔ JVal.membersDecode members = false
  | [], m => by simp [handler.objectToMap, JVal.membersDecode]
  | kv :: rest, m => by
    unfold handler.objectToMap
    rw [JVal.membersDecode]
    cases hx : kv.2.toAny with
    | none =>
      have hd : kv.2.decodes = false := (JVal.toAny_eq_none_iff kv.2).mp hx
      simp [hd]
    | some x =>
      have hd : kv.2.decodes = true := by
        cases hdd : kv.2.decodes with
        | true => rfl
        | false =>
          rw [(JVal.toAny_eq_none_iff kv.2).mpr hdd] at hx
          cases hx
      simp only [hd, Bool.true_and]
      exact handler.objectToMap_eq_none_iff rest (m.insert kv.1 x)

/-- The map decoded from an object holds under each key the decoded value of the last
member with that key. -/
theorem handler.lookup_objectToMap :
    ∀ (members : List (String × JVal)) (m bodyMap : GoMap String GoAny) (key : String),
      handler.objectToMap members m = some bodyMap →
      bodyMap.lookup key
        = match handler.lastMember members key with
          | some v => v.toAny
          | none => m.lookup key
  | [], m, bodyMap, key, h => by
    simp only [handler.objectToMap, Option.some.injEq] at h
    subst h
    simp [handler.lastMember]
  | kv :: rest, m, bodyMap, key, h => by
    unfold handler.objectToMap at h
    cases hx : kv.2.toAny with
    | none => rw [hx] at h; cases h
    | some x =>
      rw [hx] at h
      have ih := handler.lookup_objectToMap rest (m.insert kv.1 x) bodyMap key h
      rw [ih]
      cases hl : handler.lastMember rest key with
      | some v =>
        have hc : handler.lastMember (kv :: rest) key = some v := by
          simp [handler.lastMember, hl]
        rw [hc]
      | none =>
        by_cases hk : kv.1 = key
        · have hc : handler.lastMember (kv :: rest) key = some kv.2 := by
            simp [handler.lastMember, hl, hk]
          rw [hc]
          subst hk
          simp [AList.lookup_insert, hx]
        · have hc : handler.lastMember (kv :: rest) key = none := by
            simp [handler.lastMember, hl, hk]
          have hk2 : key ≠ kv.1 := fun e => hk e.symm
          rw [hc]
          simp [AList.lookup_insert_ne hk2]

/-- The value an object gives to a key is the value of one of its members. -/
theorem handler.lastMember_mem :
    ∀ (members : List (String × JVal)) (key : String) (v : JVal),
      handler.lastMember members key = some v → ∃ kv ∈ members, kv.2 = v
  | [], key, v, h => by simp [handler.lastMember] at h
  | kv :: rest, key, v, h => by
    unfold handler.lastMember at h
    cases hl : handler.lastMember rest key with
    | some w =>
      rw [hl] at h
      cases h
      obtain ⟨kv2, hm, he⟩ := handler.lastMember_mem rest key v hl
      exact ⟨kv2, List.mem_cons_of_mem _ hm, he⟩
    | none =>
      rw [hl] at h
      by_cases hk : kv.1 = key
      · rw [if_pos hk] at h
        cases h
        exact ⟨kv, List.mem_cons_self _ _, rfl⟩
      · rw [if_neg hk] at h
        cases h

theorem JVal.decodes_of_membersDecode :
    ∀ (members : List (String × JVal)), JVal.membersDecode members = true →
      ∀ kv ∈ members, kv.2.decodes = true
  | [], _, kv, hm => by cases hm
  | kv0 :: rest, h, kv, hm => by
    rw [JVal.membersDecode, Bool.and_eq_true] at h
    rcases List.mem_cons.mp hm with e | e
    · subst e; exact h.1
    · exact JVal.decodes_of_membersDecode rest h.2 kv e

/-- The `float64` the decoded body holds under a key comes from a number: the last
member with that key is a number, and the value is its nearest `float64`. -/
theorem handler.unmarshalMap_float (j : JVal) (bodyMap : GoMap String GoAny) (key : String)
    (x : Float64) (hmap : handler.unmarshalMap j = some bodyMap)
    (hx : bodyMap.lookup key = some (GoAny.float64 x)) :
    ∃ members n, j = JVal.obj members
      ∧ handler.lastMember members key = some (JVal.num n) ∧ n.toFloat64 = some x := by
  cases j with
  | obj members =>
    simp only [handler.unmarshalMap] at hmap
    have hl := handler.lookup_objectToMap members ∅ bodyMap key hmap
    rw [hx] at hl
    cases hv : handler.lastMember members key with
    | none => rw [hv] at hl; simp at hl
    | some v =>
      rw [hv] at hl
      cases v with
      | num n =>
        refine ⟨members, n, rfl, hv, ?_⟩
        simp only [JVal.toAny] at hl
        cases hn : n.toFloat64 with
        | none => rw [hn] at hl; cases hl
        | some y =>
          rw [hn] at hl
          simp only [Option.map_some', Option.some.injEq, GoAny.float64.injEq] at hl
          rw [hl]
      | null => simp [JVal.toAny] at hl
      | bool b => simp [JVal.toAny] at hl
      | str s => simp [JVal.toAny] at hl
      | arr items => by_cases h : JVal.allDecode items = true <;> simp [JVal.toAny, h] at hl
      | obj ms => by_cases h : JVal.membersDecode ms = true <;> simp [JVal.toAny, h] at hl
  | null =>
    simp only [handler.unmarshalMap, Option.some.injEq] at hmap
    subst hmap
    simp at hx
  | bool b => simp [handler.unmarshalMap] at hmap
  | num n => simp [handler.unmarshalMap] at hmap
  | str s => simp [handler.unmarshalMap] at hmap
  | arr items => simp [handler.unmarshalMap] at hmap

end Decoding

/-! ## The `Create` handler -/

section CreateHandler

open internal repository

theorem tools.checkEntries_ne_none :
    ∀ (l : List ((_ : String) × GoAny)) (e : (_ : String) × GoAny), e ∈ l →
      (tools.eqEmptyString e.2 || tools.eqIntZero e.2 || tools.eqFloatZero e.2) = true →
      tools.checkEntries l ≠ none
  | [], e, he, _ => by cases he
  | e0 :: rest, e, he, hz => by
    by_cases h0 : (tools.eqEmptyString e0.2 || tools.eqIntZero e0.2
        || tools.eqFloatZero e0.2) = true
    · simp [tools.checkEntries, h0]
    · rcases List.mem_cons.mp he with h | h
      · subst h; exact absurd hz h0
      · have ih := tools.checkEntries_ne_none rest e h hz
        simpa [tools.checkEntries, h0] using ih

/-- The part of C10 the code does meet: when the object gives to any key the empty
string, or a number whose `float64` is zero, the handler answers 400 and the store is
unchanged. -/
theorem handler.Create_zero_value_rejected (db : Store) (members : List (String × JVal))
    (field : String) (v : JVal) (hv : handler.lastMember members field = some v)
    (hz : v = JVal.str ""
      ∨ ∃ n x, v = JVal.num n ∧ n.toFloat64 = some x ∧ Float64.eq x Float64.zero = true) :
    handler.Create db (handler.RequestBody.json (JVal.obj members))
      = (db, handler.StatusBadRequest) := by
  cases hmap : handler.objectToMap members ∅ with
  | none => simp [handler.Create, handler.unmarshalMap, hmap]
  | some bodyMap =>
    have hl := handler.lookup_objectToMap members ∅ bodyMap field hmap
    rw [hv] at hl
    have hex : ∃ y, bodyMap.lookup field = some y
        ∧ (tools.eqEmptyString y || tools.eqIntZero y || tools.eqFloatZero y) = true := by
      rcases hz with h | ⟨n, x, h, hn, hx⟩
      · subst h
        exact ⟨GoAny.string "", hl, by simp [tools.eqEmptyString]⟩
      · subst h
        refine ⟨GoAny.float64 x, ?_, by simp [tools.eqFloatZero, hx]⟩
        rw [hl]
        simp [JVal.toAny, hn]
    obtain ⟨y, hy, hzero⟩ := hex
    have hmem : (⟨field, y⟩ : (_ : String) × GoAny) ∈ bodyMap.entries :=
      AList.mem_lookup_iff.mp hy
    have hc : tools.CheckFieldExistance bodyMap ≠ none :=
      tools.checkEntries_ne_none _ ⟨field, y⟩ hmem hzero
    cases hcf : tools.CheckFieldExistance bodyMap with
    | none => exact absurd hcf hc
    | some err => simp [handler.Create, handler.unmarshalMap, hmap, hcf]

/-- C10, evaluated where the code departs from it: the body
`{"id": 5, "brand": "Toyota"}` lacks twelve of the required fields.  The validator only
looks at the members that are present, finds no empty or zero value among them, and the
handler answers 201 and inserts under key 5 a record whose absent fields are all at
their zero value. -/
theorem handler_Create_absent_fields_accepted :
    (handler.Create ∅ Sample.sparseBody).2 = handler.StatusCreated
      ∧ (handler.Create ∅ Sample.sparseBody).1.keys = [5]
      ∧ (handler.Create ∅ Sample.sparseBody).1.lookup 5
          = some (handler.VehicleJSONToVehicle
              { handler.VehicleJSON.zero with ID := 5, Brand := "Toyota" })
      ∧ (handler.VehicleJSONToVehicle
            { handler.VehicleJSON.zero with ID := 5, Brand := "Toyota" }).Model = ""
      ∧ (handler.VehicleJSONToVehicle
            { handler.VehicleJSON.zero with ID := 5, Brand := "Toyota" }).MaxSpeed = 0 := by
  decide

end CreateHandler

/-! ## Identifier consistency -/

section Invariant

open internal repository

/-- Identifier consistency read through `lookup`: every key maps to a record whose `Id`
is that key. -/
theorem repository.IdConsistent_iff_lookup (db : Store) :
    IdConsistent db ↔ ∀ k v, db.lookup k = some v → v.Id = k := by
  constructor
  · intro h k v hk
    exact h ⟨k, v⟩ (AList.mem_lookup_iff.mp hk)
  · intro h e he
    exact h e.1 e.2 (AList.mem_lookup_iff.mpr he)

theorem repository.IdConsistent_insert (db : Store) (k : Int) (v : Vehicle)
    (hdb : IdConsistent db) (hv : v.Id = k) : IdConsistent (db.insert k v) := by
  rw [repository.IdConsistent_iff_lookup] at hdb ⊢
  intro k1 w hw
  by_cases hk : k1 = k
  · subst hk
    rw [AList.lookup_insert] at hw
    cases hw
    exact hv
  · rw [AList.lookup_insert_ne hk] at hw
    exact hdb k1 w hw

theorem repository.IdConsistent_erase (db : Store) (k : Int) (hdb : IdConsistent db) :
    IdConsistent (db.erase k) := by
  rw [repository.IdConsistent_iff_lookup] at hdb ⊢
  intro k1 w hw
  by_cases hk : k1 = k
  · subst hk
    rw [AList.lookup_erase] at hw
    cases hw
  · rw [AList.lookup_erase_ne hk] at hw
    exact hdb k1 w hw

theorem repository.IdConsistent_Create (db : Store) (v : Vehicle) (hdb : IdConsistent db) :
    IdConsistent (Create db v).1 := by
  unfold Create
  cases db.lookup v.Id with
  | none => exact repository.IdConsistent_insert db v.Id v hdb rfl
  | some x => exact hdb

theorem repository.IdConsistent_batchInsert :
    ∀ (vs : List Vehicle) (db : Store), IdConsistent db → IdConsistent (batchInsert db vs).1
  | [], db, hdb => hdb
  | v :: rest, db, hdb => by
    have hc := repository.IdConsistent_Create db v hdb
    unfold batchInsert
    cases hcr : Create db v with
    | mk db1 err =>
      rw [hcr] at hc
      cases err with
      | some e => exact hc
      | none => exact repository.IdConsistent_batchInsert rest db1 hc

theorem repository.IdConsistent_CreateBatch (db : Store) (vs : List Vehicle)
    (hdb : IdConsistent db) : IdConsistent (CreateBatch db vs).1 := by
  unfold CreateBatch
  cases batchCollision db vs with
  | some e => exact hdb
  | none => exact repository.IdConsistent_batchInsert vs db hdb

theorem repository.IdConsistent_UpdateSpeed (db : Store) (id : Int) (s : Float64)
    (hdb : IdConsistent db) : IdConsistent (UpdateSpeed db id s).1 := by
  unfold UpdateSpeed
  cases hl : db.lookup id with
  | none => exact hdb
  | some v =>
    exact repository.IdConsistent_insert db id _ hdb
      ((repository.IdConsistent_iff_lookup db).mp hdb id v hl)

theorem repository.IdConsistent_UpdateFuelType (db : Store) (id : Int) (f : String)
    (hdb : IdConsistent db) : IdConsistent (UpdateFuelType db id f).1 := by
  unfold UpdateFuelType
  cases hl : db.lookup id with
  | none => exact hdb
  | some v =>
    exact repository.IdConsistent_insert db id _ hdb
      ((repository.IdConsistent_iff_lookup db).mp hdb id v hl)

theorem repository.IdConsistent_Delete (db : Store) (id : Int) (hdb : IdConsistent db) :
    IdConsistent (Delete db id).1 := by
  unfold Delete
  cases db.lookup id with
  | none => exact hdb
  | some v => exact repository.IdConsistent_erase db id hdb

theorem repository.IdConsistent_applyOp (db : Store) (op : Op) (hdb : IdConsistent db) :
    IdConsistent (applyOp db op).1 := by
  cases op with
  | create v => exact repository.IdConsistent_Create db v hdb
  | createBatch vs => exact repository.IdConsistent_CreateBatch db vs hdb
  | updateSpeed id s => exact repository.IdConsistent_UpdateSpeed db id s hdb
  | updateFuelType id f => exact repository.IdConsistent_UpdateFuelType db id f hdb
  | delete id => exact repository.IdConsistent_Delete db id hdb

theorem repository.IdConsistent_run :
    ∀ (ops : List Op) (db : Store), IdConsistent db → IdConsistent (run db ops)
  | [], db, hdb => hdb
  | op :: rest, db, hdb => by
    have h1 := repository.IdConsistent_applyOp db op hdb
    exact repository.IdConsistent_run rest (applyOp db op).1 h1

/-- An update leaves the identifier of every stored record as it was: a record found
under a key after `UpdateSpeed` has the `Id` of the record found there before. -/
theorem repository.UpdateSpeed_keeps_Id (db : Store) (id : Int) (s : Float64) (k : Int)
    (v w : Vehicle) (hv : db.lookup k = some v)
    (hw : (UpdateSpeed db id s).1.lookup k = some w) : w.Id = v.Id := by
  unfold UpdateSpeed at hw
  cases hl : db.lookup id with
  | none =>
    rw [hl] at hw
    rw [hv] at hw
    cases hw
    rfl
  | some x =>
    rw [hl] at hw
    by_cases hk : k = id
    · subst hk
      rw [AList.lookup_insert] at hw
      rw [hv] at hl
      cases hl
      cases hw
      rfl
    · rw [AList.lookup_insert_ne hk, hv] at hw
      cases hw
      rfl

theorem repository.UpdateFuelType_keeps_Id (db : Store) (id : Int) (f : String) (k : Int)
    (v w : Vehicle) (hv : db.lookup k = some v)
    (hw : (UpdateFuelType db id f).1.lookup k = some w) : w.Id = v.Id := by
  unfold UpdateFuelType at hw
  cases hl : db.lookup id with
  | none =>
    rw [hl] at hw
    rw [hv] at hw
    cases hw
    rfl
  | some x =>
    rw [hl] at hw
    by_cases hk : k = id
    · subst hk
      rw [AList.lookup_insert] at hw
      rw [hv] at hl
      cases hl
      cases hw
      rfl
    · rw [AList.lookup_insert_ne hk, hv] at hw
      cases hw
      rfl

/-- C13: identifier consistency (every key `k` maps to a record whose `Id` is `k`, so two
records under different keys never share an identifier) is an invariant of the store.
If it holds before a call of `Create`, `CreateBatch`, `UpdateSpeed`, `UpdateFuelType` or
`Delete`, it holds after it, whether the call fails or not; it holds in every store
reached from the empty store of `NewVehicleMap(nil)` by any sequence of such calls; and
`UpdateSpeed` and `UpdateFuelType` never change the identifier of a stored record. -/
theorem IdConsistent_invariant :
    (∀ db, IdConsistent db ↔ ∀ k v, db.lookup k = some v → v.Id = k)
      ∧ (∀ db, IdConsistent db → ∀ k1 k2 v1 v2, db.lookup k1 = some v1 →
          db.lookup k2 = some v2 → v1.Id = v2.Id → k1 = k2)
      ∧ (∀ db v, IdConsistent db → IdConsistent (Create db v).1)
      ∧ (∀ db vs, IdConsistent db → IdConsistent (CreateBatch db vs).1)
      ∧ (∀ db id s, IdConsistent db → IdConsistent (UpdateSpeed db id s).1)
      ∧ (∀ db id f, IdConsistent db → IdConsistent (UpdateFuelType db id f).1)
      ∧ (∀ db id, IdConsistent db → IdConsistent (Delete db id).1)
      ∧ (∀ ops, IdConsistent (run (NewVehicleMap none) ops))
      ∧ (∀ db id s k v w, db.lookup k = some v →
          (UpdateSpeed db id s).1.lookup k = some w → w.Id = v.Id)
      ∧ (∀ db id f k v w, db.lookup k = some v →
          (UpdateFuelType db id f).1.lookup k = some w → w.Id = v.Id) := by
  refine ⟨repository.IdConsistent_iff_lookup, ?_, repository.IdConsistent_Create,
    repository.IdConsistent_CreateBatch, repository.IdConsistent_UpdateSpeed,
    repository.IdConsistent_UpdateFuelType, repository.IdConsistent_Delete, ?_,
    repository.UpdateSpeed_keeps_Id, repository.UpdateFuelType_keeps_Id⟩
  · intro db hdb k1 k2 v1 v2 h1 h2 hid
    have hl := (repository.IdConsistent_iff_lookup db).mp hdb
    rw [← hl k1 v1 h1, ← hl k2 v2 h2]
    exact hid
  · intro ops
    apply repository.IdConsistent_run
    intro e he
    cases he

theorem IdConsistent_invariant_witness :
    IdConsistent Sample.toyotas
      ∧ Sample.toyotas.lookup 1 = some Sample.corolla
      ∧ IdConsistent (Create Sample.toyotas Sample.civic).1
      ∧ IdConsistent (Create Sample.toyotas Sample.hondaTwin).1
      ∧ IdConsistent (CreateBatch Sample.toyotas [Sample.civic, Sample.civic]).1
      ∧ IdConsistent (UpdateSpeed Sample.toyotas 1 99).1
      ∧ IdConsistent (UpdateFuelType Sample.toyotas 1 "diesel").1
      ∧ IdConsistent (Delete Sample.toyotas 1).1
      ∧ (∀ w, (UpdateSpeed Sample.toyotas 1 99).1.lookup 1 = some w → w.Id = Sample.corolla.Id) :=
  ⟨by decide, by decide,
    IdConsistent_invariant.2.2.1 Sample.toyotas Sample.civic (by decide),
    IdConsistent_invariant.2.2.1 Sample.toyotas Sample.hondaTwin (by decide),
    IdConsistent_invariant.2.2.2.1 Sample.toyotas [Sample.civic, Sample.civic] (by decide),
    IdConsistent_invariant.2.2.2.2.1 Sample.toyotas 1 99 (by decide),
    IdConsistent_invariant.2.2.2.2.2.1 Sample.toyotas 1 "diesel" (by decide),
    IdConsistent_invariant.2.2.2.2.2.2.1 Sample.toyotas 1 (by decide),
    fun w hw => IdConsistent_invariant.2.2.2.2.2.2.2.2.1 Sample.toyotas 1 99 1
      Sample.corolla w (by decide) hw⟩

end Invariant

/-! ## The `UpdateSpeed` handler -/

section UpdateSpeedHandler

open internal repository

theorem Float64.finite_not_le_zero_iff (neg : Bool) (m : Nat) :
    ¬ (Float64.finite neg m ≤ Float64.zero) ↔ Float64.zero < Float64.finite neg m := by
  show ¬ (Float64.le (Float64.finite neg m) Float64.zero = true)
    ↔ Float64.lt Float64.zero (Float64.finite neg m) = true
  simp [Float64.le, Float64.lt, Float64.zero]

theorem JNumber.unitsDen_pos (n : JNumber) : 0 < n.unitsDen :=
  Float64.decimalDen_pos n.exp10

/-- A number with a minus sign, or with only zero digits, is decoded to a `float64` that
is `<= 0`. -/
theorem JNumber.toFloat64_le_zero (n : JNumber) (x : Float64) (h : n.toFloat64 = some x)
    (hn : n.neg = true ∨ n.coeff = 0) : x ≤ Float64.zero := by
  rw [JNumber.toFloat64_eq_some n x h]
  show Float64.le _ Float64.zero = true
  rcases hn with hneg | hc
  · rw [hneg]
    simp [Float64.le, Float64.zero, Float64.signedUnits]
  · have hz : n.unitsNum = 0 := by
      unfold JNumber.unitsNum Float64.decimalNum
      rw [hc]
      simp
    rw [hz, Float64.roundUnits_zero]
    cases n.neg <;> simp [Float64.le, Float64.zero, Float64.signedUnits]

/-- A positive number of at most `2 ^ (-1075)` is decoded to zero. -/
theorem JNumber.toFloat64_tiny (n : JNumber) (x : Float64) (h : n.toFloat64 = some x)
    (ht : 2 * n.unitsNum ≤ n.unitsDen) : x ≤ Float64.zero := by
  rw [JNumber.toFloat64_eq_some n x h]
  have hz : Float64.roundUnits n.unitsNum n.unitsDen = 0 :=
    (Float64.roundUnits_eq_zero_iff n.unitsNum n.unitsDen n.unitsDen_pos).mpr ht
  rw [hz]
  show Float64.le _ Float64.zero = true
  cases n.neg <;> simp [Float64.le, Float64.zero, Float64.signedUnits]

/-- A positive number above `2 ^ (-1075)` that is in range is decoded to a `float64`
that is `> 0`. -/
theorem JNumber.toFloat64_pos (n : JNumber) (x : Float64) (h : n.toFloat64 = some x)
    (hneg : n.neg = false) (ht : n.unitsDen < 2 * n.unitsNum) : Float64.zero < x := by
  rw [JNumber.toFloat64_eq_some n x h, hneg]
  have hz : Float64.roundUnits n.unitsNum n.unitsDen ≠ 0 := by
    intro h0
    have := (Float64.roundUnits_eq_zero_iff n.unitsNum n.unitsDen n.unitsDen_pos).mp h0
    omega
  show Float64.lt Float64.zero _ = true
  simp only [Float64.lt, Float64.zero, Float64.signedUnits, Bool.false_eq_true, if_false,
    decide_eq_true_eq]
  have hpos : 0 < Float64.roundUnits n.unitsNum n.unitsDen := Nat.pos_of_ne_zero hz
  exact_mod_cast hpos

/-- The handler on a JSON object, by what the decoded body holds under `max_speed`. -/
theorem handler.UpdateSpeed_of_lookup (db : Store) (id : Int)
    (members : List (String × JVal)) (bodyMap : GoMap String GoAny)
    (hmap : handler.objectToMap members ∅ = some bodyMap) :
    handler.UpdateSpeed db (some id) (handler.RequestBody.json (JVal.obj members))
      = match bodyMap.lookup "max_speed" with
        | some (GoAny.float64 x) =>
          if x ≤ Float64.zero then (db, handler.StatusBadRequest)
          else
            match repository.UpdateSpeed db id x with
            | (db1, some _) => (db1, handler.StatusNotFound)
            | (db1, none) => (db1, handler.StatusOK)
        | _ => (db, handler.StatusBadRequest) := by
  simp only [handler.UpdateSpeed, handler.unmarshalMap, hmap, service.UpdateSpeed]

/-- The handler either leaves the store alone and answers 400, or has decoded a number
to a `float64` that is `> 0` and answers by the result of the repository's
`UpdateSpeed` with it. -/
theorem handler.UpdateSpeed_cases (db : Store) (id : Option Int)
    (body : handler.RequestBody) :
    handler.UpdateSpeed db id body = (db, handler.StatusBadRequest)
      ∨ ∃ i x, Float64.zero < x ∧ id = some i
          ∧ ((repository.UpdateSpeed db i x).2 = none
              ∧ handler.UpdateSpeed db id body
                = ((repository.UpdateSpeed db i x).1, handler.StatusOK)
            ∨ (repository.UpdateSpeed db i x).2 ≠ none
              ∧ handler.UpdateSpeed db id body
                = ((repository.UpdateSpeed db i x).1, handler.StatusNotFound)) := by
  cases id with
  | none => exact Or.inl rfl
  | some i =>
    cases body with
    | readError => exact Or.inl rfl
    | invalid => exact Or.inl rfl
    | json j =>
      cases hmap : handler.unmarshalMap j with
      | none => left; simp [handler.UpdateSpeed, hmap]
      | some bodyMap =>
        cases hl : bodyMap.lookup "max_speed" with
        | none => left; simp [handler.UpdateSpeed, hmap, hl]
        | some y =>
          cases y with
          | float64 x =>
            obtain ⟨members, n, _, _, hn⟩ := handler.unmarshalMap_float j bodyMap _ x hmap hl
            have hfin := JNumber.toFloat64_eq_some n x hn
            by_cases hx : x ≤ Float64.zero
            · left; simp [handler.UpdateSpeed, hmap, hl, hx]
            · right
              have hpos : Float64.zero < x := by
                rw [hfin] at hx ⊢
                exact (Float64.finite_not_le_zero_iff _ _).mp hx
              refine ⟨i, x, hpos, rfl, ?_⟩
              simp only [handler.UpdateSpeed, hmap, hl, hx, if_false, service.UpdateSpeed]
              cases hr : repository.UpdateSpeed db i x with
              | mk db1 err =>
                cases err with
                | none => simp
                | some e => simp
          | nil => left; simp [handler.UpdateSpeed, hmap, hl]
          | bool b => left; simp [handler.UpdateSpeed, hmap, hl]
          | int k => left; simp [handler.UpdateSpeed, hmap, hl]
          | string s => left; simp [handler.UpdateSpeed, hmap, hl]
          | slice items => left; simp [handler.UpdateSpeed, hmap, hl]
          | map ms => left; simp [handler.UpdateSpeed, hmap, hl]

/-- C12 as stated fails on the code: on the store holding the Corolla under key 1, the
body `{"max_speed": 1e-400}` has a `max_speed` that is a number `> 0`, yet the handler
answers 400 and leaves the record alone, because the number is decoded to the `float64`
zero.  The body `{"max_speed": 1e400}`, and the body `{"max_speed": 99, "note": 1e400}`,
are answered 400 as well: decoding fails on the number out of range. -/
theorem handler_UpdateSpeed_positive_number_rejected :
    Sample.toyotas.lookup 1 = some Sample.corolla
      ∧ handler.lastMember Sample.tinySpeedMembers "max_speed"
          = some (JVal.num Sample.tinyNumber)
      ∧ Sample.tinyNumber.neg = false ∧ 0 < Sample.tinyNumber.coeff
      ∧ (handler.UpdateSpeed Sample.toyotas (some 1)
          (handler.RequestBody.json (JVal.obj Sample.tinySpeedMembers))).2
          = handler.StatusBadRequest
      ∧ (handler.UpdateSpeed Sample.toyotas (some 1)
          (handler.RequestBody.json (JVal.obj Sample.tinySpeedMembers))).1.lookup 1
          = some Sample.corolla
      ∧ handler.lastMember Sample.hugeSpeedMembers "max_speed"
          = some (JVal.num Sample.hugeNumber)
      ∧ Sample.hugeNumber.neg = false ∧ 0 < Sample.hugeNumber.coeff
      ∧ (handler.UpdateSpeed Sample.toyotas (some 1)
          (handler.RequestBody.json (JVal.obj Sample.hugeSpeedMembers))).2
          = handler.StatusBadRequest
      ∧ handler.lastMember Sample.hugeNoteMembers "max_speed"
          = some (JVal.num (JNumber.ofNat 99))
      ∧ (handler.UpdateSpeed Sample.toyotas (some 1)
          (handler.RequestBody.json (JVal.obj Sample.hugeNoteMembers))).2
          = handler.StatusBadRequest := by
  refine ⟨by decide, by rfl, by decide, by decide, by decide, by decide, by rfl, by decide,
    by decide, by decide, by rfl, by decide⟩

/-- C12, amended: for an integer `id` and a JSON object body, with `max_speed` the value
of the last member of the body with that key.  The handler answers 400 and leaves the
store unchanged when some number in the body is out of the range of `float64` (the body
does not decode), when `max_speed` is absent or is not a number, and when it is a number
with a minus sign, with only zero digits, or of at most `2 ^ (-1075)` (its nearest
`float64` is `<= 0`), or of at least `2 ^ 1024 - 2 ^ 970` (it is out of range).  When the body decodes and `max_speed` is a positive number above
`2 ^ (-1075)`, its nearest `float64` `x` is `> 0`; the handler answers 200 and the record
under `id` gets max speed `x` (nothing else changes) if `id` is a key, and answers 404
with the store unchanged if it is not.  Hence for every request whatsoever, a record of
the store after it is either a record that was there before, unchanged, or has a positive
max speed. -/
theorem handler_UpdateSpeed_contract (db : Store) (id : Int)
    (members : List (String × JVal)) :
    (JVal.membersDecode members = false →
        handler.UpdateSpeed db (some id) (handler.RequestBody.json (JVal.obj members))
          = (db, handler.StatusBadRequest))
      ∧ (handler.lastMember members "max_speed" = none →
          handler.UpdateSpeed db (some id) (handler.RequestBody.json (JVal.obj members))
            = (db, handler.StatusBadRequest))
      ∧ (∀ v, handler.lastMember members "max_speed" = some v → (∀ n, v ≠ JVal.num n) →
          handler.UpdateSpeed db (some id) (handler.RequestBody.json (JVal.obj members))
            = (db, handler.StatusBadRequest))
      ∧ (∀ n, handler.lastMember members "max_speed" = some (JVal.num n) →
          (n.neg = true ∨ n.coeff = 0 ∨ 2 * n.unitsNum ≤ n.unitsDen
            ∨ n.unitsDen * (2 ^ 2098 - 2 ^ 2044) ≤ n.unitsNum) →
          handler.UpdateSpeed db (some id) (handler.RequestBody.json (JVal.obj members))
            = (db, handler.StatusBadRequest))
      ∧ (∀ n, JVal.membersDecode members = true →
          handler.lastMember members "max_speed" = some (JVal.num n) →
          n.neg = false → n.unitsDen < 2 * n.unitsNum →
          ∃ x, n.toFloat64 = some x ∧ Float64.zero < x
            ∧ (∀ v, db.lookup id = some v →
                (handler.UpdateSpeed db (some id)
                    (handler.RequestBody.json (JVal.obj members))).2 = handler.StatusOK
                  ∧ (handler.UpdateSpeed db (some id)
                      (handler.RequestBody.json (JVal.obj members))).1.lookup id
                      = some { v with MaxSpeed := x }
                  ∧ ∀ k, k ≠ id →
                      (handler.UpdateSpeed db (some id)
                        (handler.RequestBody.json (JVal.obj members))).1.lookup k
                        = db.lookup k)
            ∧ (id ∉ db →
                handler.UpdateSpeed db (some id)
                    (handler.RequestBody.json (JVal.obj members))
                  = (db, handler.StatusNotFound)))
      ∧ (∀ (anyId : Option Int) (anyBody : handler.RequestBody) k w,
          (handler.UpdateSpeed db anyId anyBody).1.lookup k = some w →
          db.lookup k = some w ∨ Float64.zero < w.MaxSpeed) := by
  have hnone : handler.objectToMap members ∅ = none →
      handler.UpdateSpeed db (some id) (handler.RequestBody.json (JVal.obj members))
        = (db, handler.StatusBadRequest) := by
    intro h
    simp [handler.UpdateSpeed, handler.unmarshalMap, h]
  refine ⟨?_, ?_, ?_, ?_, ?_, ?_⟩
  · intro h
    exact hnone ((handler.objectToMap_eq_none_iff members ∅).mpr h)
  · intro h
    cases hmap : handler.objectToMap members ∅ with
    | none => exact hnone hmap
    | some bodyMap =>
      have hl := handler.lookup_objectToMap members ∅ bodyMap "max_speed" hmap
      rw [h] at hl
      rw [handler.UpdateSpeed_of_lookup db id members bodyMap hmap, hl]
      simp
  · intro v hv hnot
    cases hmap : handler.objectToMap members ∅ with
    | none => exact hnone hmap
    | some bodyMap =>
      have hl := handler.lookup_objectToMap members ∅ bodyMap "max_speed" hmap
      rw [hv] at hl
      rw [handler.UpdateSpeed_of_lookup db id members bodyMap hmap, hl]
      cases v with
      | num n => exact absurd rfl (hnot n)
      | null => simp [JVal.toAny]
      | bool b => simp [JVal.toAny]
      | str s => simp [JVal.toAny]
      | arr items => by_cases h : JVal.allDecode items = true <;> simp [JVal.toAny, h]
      | obj ms => by_cases h : JVal.membersDecode ms = true <;> simp [JVal.toAny, h]
  · intro n hv hn
    cases hmap : handler.objectToMap members ∅ with
    | none => exact hnone hmap
    | some bodyMap =>
      have hl := handler.lookup_objectToMap members ∅ bodyMap "max_speed" hmap
      rw [hv] at hl
      rw [handler.UpdateSpeed_of_lookup db id members bodyMap hmap, hl]
      cases hx : n.toFloat64 with
      | none => simp [JVal.toAny, hx]
      | some x =>
        have hle : x ≤ Float64.zero := by
          rcases hn with h1 | h1 | h1 | h1
          · exact JNumber.toFloat64_le_zero n x hx (Or.inl h1)
          · exact JNumber.toFloat64_le_zero n x hx (Or.inr h1)
          · exact JNumber.toFloat64_tiny n x hx h1
          · rw [(JNumber.toFloat64_eq_none_iff n).mpr h1] at hx
            cases hx
        simp [JVal.toAny, hx, hle]
  · intro n hdec hv hneg hbig
    obtain ⟨kv, hkv, hkv2⟩ := handler.lastMember_mem members "max_speed" _ hv
    have hd : (JVal.num n).decodes = true := by
      rw [← hkv2]
      exact JVal.decodes_of_membersDecode members hdec kv hkv
    rw [JVal.decodes, Option.isSome_iff_exists] at hd
    obtain ⟨x, hx⟩ := hd
    have hpos : Float64.zero < x := JNumber.toFloat64_pos n x hx hneg hbig
    have hnle : ¬ (x ≤ Float64.zero) := by
      have hfin := JNumber.toFloat64_eq_some n x hx
      rw [hfin] at hpos ⊢
      exact (Float64.finite_not_le_zero_iff _ _).mpr hpos
    cases hmap : handler.objectToMap members ∅ with
    | none =>
      rw [(handler.objectToMap_eq_none_iff members ∅).mp hmap] at hdec
      cases hdec
    | some bodyMap =>
      have hl := handler.lookup_objectToMap members ∅ bodyMap "max_speed" hmap
      rw [hv] at hl
      have hl2 : bodyMap.lookup "max_speed" = some (GoAny.float64 x) := by
        rw [hl]
        simp [JVal.toAny, hx]
      have hH := handler.UpdateSpeed_of_lookup db id members bodyMap hmap
      rw [hl2] at hH
      simp only [hnle, if_false] at hH
      refine ⟨x, hx, hpos, ?_, ?_⟩
      · intro v hlk
        have hr : repository.UpdateSpeed db id x
            = (db.insert id { v with MaxSpeed := x }, none) := by
          simp [repository.UpdateSpeed, hlk]
        rw [hr] at hH
        rw [hH]
        refine ⟨rfl, AList.lookup_insert db, ?_⟩
        intro k hk
        exact AList.lookup_insert_ne hk
      · intro hid
        have hlk : db.lookup id = none := AList.lookup_eq_none.mpr hid
        have hr : repository.UpdateSpeed db id x = (db, some (RepoError.notFound id)) := by
          simp [repository.UpdateSpeed, hlk]
        rw [hr] at hH
        exact hH
  · intro anyId anyBody k w hw
    rcases handler.UpdateSpeed_cases db anyId anyBody with h | ⟨i, x, hx, _, h⟩
    · rw [h] at hw
      exact Or.inl hw
    · have hstore : (handler.UpdateSpeed db anyId anyBody).1
          = (repository.UpdateSpeed db i x).1 := by
        rcases h with ⟨_, h⟩ | ⟨_, h⟩ <;> rw [h]
      rw [hstore] at hw
      unfold repository.UpdateSpeed at hw
      cases hl : db.lookup i with
      | none =>
        rw [hl] at hw
        exact Or.inl hw
      | some v =>
        rw [hl] at hw
        by_cases hk : k = i
        · subst hk
          rw [AList.lookup_insert] at hw
          cases hw
          exact Or.inr hx
        · rw [AList.lookup_insert_ne hk] at hw
          exact Or.inl hw

theorem handler_UpdateSpeed_contract_witness :
    Sample.toyotas.lookup 1 = some Sample.corolla
      ∧ (7 : Int) ∉ Sample.toyotas
      ∧ handler.UpdateSpeed Sample.toyotas (some 1)
          (handler.RequestBody.json (JVal.obj Sample.hugeNoteMembers))
          = (Sample.toyotas, handler.StatusBadRequest)
      ∧ handler.UpdateSpeed Sample.toyotas (some 1) (handler.RequestBody.json (JVal.obj []))
          = (Sample.toyotas, handler.StatusBadRequest)
      ∧ handler.UpdateSpeed Sample.toyotas (some 1)
            (handler.RequestBody.json (JVal.obj [("max_speed", JVal.str "fast")]))
          = (Sample.toyotas, handler.StatusBadRequest)
      ∧ handler.UpdateSpeed Sample.toyotas (some 1)
            (handler.RequestBody.json (JVal.obj Sample.tinySpeedMembers))
          = (Sample.toyotas, handler.StatusBadRequest)
      ∧ handler.UpdateSpeed Sample.toyotas (some 1)
            (handler.RequestBody.json (JVal.obj Sample.hugeSpeedMembers))
          = (Sample.toyotas, handler.StatusBadRequest)
      ∧ (∃ x, (JNumber.ofNat 99).toFloat64 = some x ∧ Float64.zero < x
          ∧ (handler.UpdateSpeed Sample.toyotas (some 1)
              (handler.RequestBody.json (JVal.obj Sample.speedMembers))).2 = handler.StatusOK
          ∧ (handler.UpdateSpeed Sample.toyotas (some 1)
              (handler.RequestBody.json (JVal.obj Sample.speedMembers))).1.lookup 1
              = some { Sample.corolla with MaxSpeed := x })
      ∧ handler.UpdateSpeed Sample.toyotas (some 7)
            (handler.RequestBody.json (JVal.obj Sample.speedMembers))
          = (Sample.toyotas, handler.StatusNotFound) :=
  ⟨by decide, by decide,
    (handler_UpdateSpeed_contract Sample.toyotas 1 Sample.hugeNoteMembers).1 (by decide),
    (handler_UpdateSpeed_contract Sample.toyotas 1 []).2.1 (by rfl),
    (handler_UpdateSpeed_contract Sample.toyotas 1 [("max_speed", JVal.str "fast")]).2.2.1
      (JVal.str "fast") (by rfl) (fun n h => by cases h),
    (handler_UpdateSpeed_contract Sample.toyotas 1 Sample.tinySpeedMembers).2.2.2.1
      Sample.tinyNumber (by rfl) (Or.inr (Or.inr (Or.inl (by decide)))),
    (handler_UpdateSpeed_contract Sample.toyotas 1 Sample.hugeSpeedMembers).2.2.2.1
      Sample.hugeNumber (by rfl) (Or.inr (Or.inr (Or.inr (by decide)))),
    (fun h => ⟨h.choose, h.choose_spec.1, h.choose_spec.2.1,
        (h.choose_spec.2.2.1 Sample.corolla (by decide)).1,
        (h.choose_spec.2.2.1 Sample.corolla (by decide)).2.1⟩)
      ((handler_UpdateSpeed_contract Sample.toyotas 1 Sample.speedMembers).2.2.2.2.1
        (JNumber.ofNat 99) (by decide) (by rfl) (by decide) (by decide)),
    (fun h => h.choose_spec.2.2.2 (by decide))
      ((handler_UpdateSpeed_contract Sample.toyotas 7 Sample.speedMembers).2.2.2.2.1
        (JNumber.ofNat 99) (by decide) (by rfl) (by decide) (by decide))⟩

end UpdateSpeedHandler

/-! ## The `GetByDimensions` handler -/

section GetByDimensionsHandler

open internal repository

theorem strings.splitChars_ne_nil (sep : Char) :
    ∀ cs : List Char, ∃ piece pieces, strings.splitChars sep cs = piece :: pieces
  | [] => ⟨[], [], rfl⟩
  | c :: cs => by
    obtain ⟨p, ps, h⟩ := strings.splitChars_ne_nil sep cs
    by_cases hc : c = sep
    · exact ⟨[], strings.splitChars sep cs, by simp [strings.splitChars, hc]⟩
    · exact ⟨c :: p, ps, by simp [strings.splitChars, hc, h]⟩

/-- A string without the separator is split into one piece, itself. -/
theorem strings.splitChars_of_not_mem (sep : Char) :
    ∀ cs : List Char, sep ∉ cs → strings.splitChars sep cs = [cs]
  | [], _ => rfl
  | c :: cs, h => by
    have hc : ¬ c = sep := fun e => h (by simp [e])
    have hcs : sep ∉ cs := fun e => h (List.mem_cons_of_mem c e)
    simp [strings.splitChars, hc, strings.splitChars_of_not_mem sep cs hcs]

/-- A string with the separator is split into at least two pieces. -/
theorem strings.splitChars_of_mem (sep : Char) :
    ∀ cs : List Char, sep ∈ cs →
      ∃ first second rest, strings.splitChars sep cs = first :: second :: rest
  | [], h => by cases h
  | c :: cs, h => by
    by_cases hc : c = sep
    · obtain ⟨p, ps, hp⟩ := strings.splitChars_ne_nil sep cs
      exact ⟨[], p, ps, by simp [strings.splitChars, hc, hp]⟩
    · have hcs : sep ∈ cs := by
        rcases List.mem_cons.mp h with e | e
        · exact absurd e.symm hc
        · exact e
      obtain ⟨a, b, rest, hab⟩ := strings.splitChars_of_mem sep cs hcs
      exact ⟨c :: a, b, rest, by simp [strings.splitChars, hc, hab]⟩

theorem strings.Split_of_not_mem (s : String) (sep : Char) (h : sep ∉ s.data) :
    strings.Split s sep = [s] := by
  unfold strings.Split
  rw [strings.splitChars_of_not_mem sep s.data h]
  rfl

theorem strings.Split_of_mem (s : String) (sep : Char) (h : sep ∈ s.data) :
    ∃ first second rest, strings.Split s sep = first :: second :: rest := by
  obtain ⟨a, b, rest, hab⟩ := strings.splitChars_of_mem sep s.data h
  exact ⟨String.mk a, String.mk b, rest.map String.mk, by simp [strings.Split, hab]⟩

/-- Whenever the `length` parameter has no dash and is itself accepted by `ParseFloat`,
the handler takes `lengths[1]` from a slice of one element and panics, whatever the
store and the `width` parameter are. -/
theorem handler.GetByDimensions_panic_of_no_dash (ParseFloat : String → Option Float64)
    (db : Store) (length : String) (width : Option String) (x : Float64)
    (hdash : '-' ∉ length.data) (hparse : ParseFloat length = some x) :
    handler.GetByDimensions ParseFloat db (some length) width = handler.Outcome.panic := by
  unfold handler.GetByDimensions
  simp [strings.Split_of_not_mem length '-' hdash, hparse]

/-- An absent `length` parameter is answered 400: the empty string is split into one
empty piece, which `ParseFloat` rejects. -/
theorem handler.GetByDimensions_absent_length (ParseFloat : String → Option Float64)
    (db : Store) (width : Option String) (hempty : ParseFloat "" = none) :
    handler.GetByDimensions ParseFloat db none width
      = handler.Outcome.response handler.StatusBadRequest := by
  have hs : strings.Split "" '-' = [""] := by decide
  unfold handler.GetByDimensions
  simp [hs, hempty]

/-- When both parameters hold a dash, every index the handler takes is within bounds and
it answers 200, 400 or 404. -/
theorem handler.GetByDimensions_status_of_dashes (ParseFloat : String → Option Float64)
    (db : Store) (length width : String) (hl : '-' ∈ length.data) (hw : '-' ∈ width.data) :
    ∃ status, handler.GetByDimensions ParseFloat db (some length) (some width)
        = handler.Outcome.response status
      ∧ (status = handler.StatusOK ∨ status = handler.StatusBadRequest
          ∨ status = handler.StatusNotFound) := by
  obtain ⟨l0, l1, lrest, hls⟩ := strings.Split_of_mem length '-' hl
  obtain ⟨w0, w1, wrest, hws⟩ := strings.Split_of_mem width '-' hw
  unfold handler.GetByDimensions
  simp only [Option.getD_some, hls, hws, List.getElem?_cons_zero, List.getElem?_cons_succ]
  cases ParseFloat l0 with
  | none => exact ⟨_, rfl, Or.inr (Or.inl rfl)⟩
  | some a =>
    cases ParseFloat l1 with
    | none => exact ⟨_, rfl, Or.inr (Or.inl rfl)⟩
    | some b =>
      cases ParseFloat w0 with
      | none => exact ⟨_, rfl, Or.inr (Or.inl rfl)⟩
      | some c =>
        cases ParseFloat w1 with
        | none => exact ⟨_, rfl, Or.inr (Or.inl rfl)⟩
        | some d =>
          dsimp only
          cases hr : service.FindByDimensions db a b c d with
          | mk found err =>
            cases err with
            | none => exact ⟨_, rfl, Or.inl rfl⟩
            | some e => exact ⟨_, rfl, Or.inr (Or.inr rfl)⟩

/-- C11, evaluated where the code departs from it: for the request
`GET /vehicles/dimensions?length=5&width=1-2` the value of `length` has no dash, so
`strings.Split` gives the one-element slice `["5"]`; `"5"` parses, and the handler then
takes `lengths[1]`, which is out of range: it panics instead of answering 400.  The same
happens on `width=2` after a well-formed `length`.  An absent `length` is answered 400,
and two well-formed ranges are answered 200 or 404. -/
theorem handler_GetByDimensions_no_dash_panics :
    strings.Split "5" '-' = ["5"]
      ∧ Sample.parseDigits "5" = some 5
      ∧ handler.GetByDimensions Sample.parseDigits Sample.toyotas (some "5") (some "1-2")
          = handler.Outcome.panic
      ∧ handler.GetByDimensions Sample.parseDigits Sample.toyotas (some "1-2") (some "2")
          = handler.Outcome.panic
      ∧ handler.GetByDimensions Sample.parseDigits Sample.toyotas none (some "1-2")
          = handler.Outcome.response handler.StatusBadRequest
      ∧ handler.GetByDimensions Sample.parseDigits Sample.toyotas (some "1-2") (some "1-2")
          = handler.Outcome.response handler.StatusOK
      ∧ handler.GetByDimensions Sample.parseDigits Sample.toyotas (some "7-9") (some "1-2")
          = handler.Outcome.response handler.StatusNotFound := by
  decide

end GetByDimensionsHandler
